import Mathlib

/-!
# Verification of the staged weather-data transformation pipeline

A shallow embedding of the incremental transformation pipeline
(`transform_bronze_to_silver.py`, `transform_silver_to_gold.py`,
`rebuild_silver.py`, data model in `app/models.py`) and proofs of the
claims about it.

Modelling conventions:
* timestamps are seconds since the epoch, as `Nat` (`datetime` values in the
  source are always positive and compare like their epoch seconds);
* calendar dates are day numbers (`timestamp / 86400`), mirroring
  `timestamp.date()`;
* `float` measurement fields become `ℚ` (the claims only depend on order
  comparisons and exact arithmetic at the tested points);
* each database table is a `List` of rows; the list of `TransformationLog`
  rows is kept newest-first, so the source's
  `order_by(run_timestamp.desc()).first()` is the head of the filtered list
  (every writer prepends, which maintains the convention);
* the SQLAlchemy session (`autocommit=False, autoflush=False`) is modelled by
  carrying the list of pending inserts explicitly: queries see only committed
  rows, and any `commit()` — including the one in the `except` handler of
  `transform_bronze_to_silver` — flushes all pending inserts;
* an exception thrown inside the per-record loop of Stage 1 is modelled by a
  fail-point parameter: `some k` means the exception fires after the first
  `k` surviving records have been handled, `none` means the run completes.
-/

/-- Bronze-layer row: `WeatherRecord` from `app/models.py`. -/
structure WeatherRecord where
  id : Nat
  city : String
  country : String
  temperature : ℚ
  feels_like : ℚ
  humidity : Int
  description : String
  wind_speed : ℚ
  wind_direction : Int
  pressure : Int
  visibility : Int
  timestamp : Nat
deriving DecidableEq, Repr

/-- Silver-layer row: `WeatherRecordSilver` from `app/models.py`
(the autoincrement `id` column is omitted; no claim mentions it). -/
structure WeatherRecordSilver where
  city : String
  country : String
  temperature : ℚ
  feels_like : ℚ
  humidity : Int
  description : String
  wind_speed : ℚ
  wind_direction : Int
  pressure : Int
  visibility : Int
  timestamp : Nat
  processed_at : Nat
  bronze_record_id : Nat
  data_quality_flag : String
  data_quality_notes : Option String
deriving DecidableEq, Repr

/-- Checkpoint row: `TransformationLog` from `app/models.py`. -/
structure TransformationLog where
  transformation_name : String
  last_processed_timestamp : Nat
  run_timestamp : Nat
  records_processed : Nat
  status : String
deriving DecidableEq, Repr

/-- Gold-layer row: `WeatherDailyGold` from `app/models.py` (autoincrement
`id` omitted).  `avg_pressure` / `avg_visibility` are columns the transform
never fills, hence `Option`. -/
structure WeatherDailyGold where
  city : String
  country : String
  date : Nat
  avg_temperature : ℚ
  max_temperature : ℚ
  min_temperature : ℚ
  avg_humidity : Int
  max_humidity : Int
  min_humidity : Int
  avg_wind_speed : ℚ
  avg_pressure : Option ℚ
  avg_visibility : Option ℚ
  most_common_description : String
  total_readings : Nat
  valid_readings : Nat
  created_at : Nat
deriving DecidableEq, Repr

/-- Analytics-layer row: `WeatherAnalyticsLayer` from `app/models.py`. -/
structure WeatherAnalyticsLayer where
  city : String
  country : String
  timestamp : Nat
  temperature : ℚ
  humidity : Int
  wind_speed : ℚ
  description : String
  is_hot_clear_day : Bool
  silver_record_id : Nat
  created_at : Nat
deriving DecidableEq, Repr

/-- Reporting-mart row: `WeatherReportingMart` from `app/models.py`. -/
structure WeatherReportingMart where
  city : String
  date : Nat
  max_temperature : ℚ
  min_temperature : ℚ
  avg_wind_speed : ℚ
  created_at : Nat
deriving DecidableEq, Repr

/-- Scheduler batch-run row: `BatchLog` from `app/models.py`. -/
structure BatchLog where
  batch_start_time : Nat
  batch_end_time : Nat
  cities_attempted : Nat
  cities_successful : Nat
  cities_failed : Nat
  error_message : Option String
  duration_seconds : ℚ
deriving DecidableEq, Repr

/-- The whole database: one list per table of `app/models.py`. -/
structure DB where
  weather_records : List WeatherRecord
  weather_records_silver : List WeatherRecordSilver
  transformation_logs : List TransformationLog
  weather_daily_gold : List WeatherDailyGold
  weather_analytics_layer : List WeatherAnalyticsLayer
  weather_reporting : List WeatherReportingMart
  batch_logs : List BatchLog
deriving DecidableEq, Repr

/-- `validate_temperature` from `transform_bronze_to_silver.py`. -/
def validate_temperature (temp : ℚ) : String × Option String :=
  if temp < -50 ∨ temp > 60 then
    ("invalid", some ("Temperature " ++ toString temp ++
      "°C is outside reasonable range (-50 to 60)"))
  else if temp < -30 ∨ temp > 50 then
    ("suspect", some ("Temperature " ++ toString temp ++
      "°C is extreme but possible"))
  else
    ("valid", none)

/-- `validate_humidity` from `transform_bronze_to_silver.py`. -/
def validate_humidity (humidity : Int) : String × Option String :=
  if humidity < 0 ∨ humidity > 100 then
    ("invalid", some ("Humidity " ++ toString humidity ++
      "% is outside valid range (0-100)"))
  else
    ("valid", none)

/-- Helper for `validate_record`: the running `worst_flag` update for the
temperature check (`if temp_flag == "invalid" or worst_flag == "valid"`). -/
def tempWorst (worst_flag temp_flag : String) : String :=
  if temp_flag ≠ "valid" then
    if temp_flag = "invalid" ∨ worst_flag = "valid" then temp_flag else worst_flag
  else worst_flag

/-- `validate_record` from `transform_bronze_to_silver.py`: combine the field
checks into an overall flag plus semicolon-joined notes. -/
def validate_record (record : WeatherRecord) : String × Option String :=
  let tf := validate_temperature record.temperature
  let hf := validate_humidity record.humidity
  let issues₁ : List String :=
    if tf.1 ≠ "valid" then [(tf.2).getD ""] else []
  let issues : List String :=
    if hf.1 ≠ "valid" then issues₁ ++ [(hf.2).getD ""] else issues₁
  let worst₁ := tempWorst "valid" tf.1
  let worst := if hf.1 ≠ "valid" ∧ hf.1 = "invalid" then "invalid" else worst₁
  (worst, if issues = [] then none else some (String.intercalate "; " issues))

/-- The hour bucket of a timestamp:
`timestamp.replace(minute=0, second=0, microsecond=0)`. -/
def hourKey (t : Nat) : Nat :=
  (t / 3600) * 3600

/-- `abs((record.timestamp - hour_key).total_seconds())`; the truncated hour
never exceeds the timestamp, so this is plain subtraction. -/
def hourDistance (t : Nat) : Nat :=
  t - hourKey t

/-- The dedup grouping key `(record.city, hour_key)`. -/
def dedupKey (r : WeatherRecord) : String × Nat :=
  (r.city, hourKey r.timestamp)

/-- Association-list lookup (Python `key in dict` / `dict[key]`). -/
def alookup {κ ν : Type} [DecidableEq κ] (key : κ) :
    List (κ × ν) → Option ν
  | [] => none
  | (k, v) :: rest => if k = key then some v else alookup key rest

/-- In-place association-list overwrite (`dict[key] = v` for an existing key
keeps its insertion position). -/
def aupdate {κ ν : Type} [DecidableEq κ] (key : κ) (v : ν) :
    List (κ × ν) → List (κ × ν)
  | [] => []
  | (k, w) :: rest =>
      if k = key then (k, v) :: rest else (k, w) :: aupdate key v rest

/-- One iteration of the loop of `deduplicate_records`: insert the record, or
replace the stored one when strictly closer to the top of the hour. -/
def dedupStep (acc : List ((String × Nat) × (WeatherRecord × Nat)))
    (record : WeatherRecord) : List ((String × Nat) × (WeatherRecord × Nat)) :=
  let key := dedupKey record
  let distance := hourDistance record.timestamp
  match alookup key acc with
  | none => acc ++ [(key, (record, distance))]
  | some (_, existing_distance) =>
      if distance < existing_distance then aupdate key (record, distance) acc
      else acc

/-- `deduplicate_records` from `transform_bronze_to_silver.py`: the insertion
ordered dict is an association list, and `.values()` drops the keys and the
distance metadata. -/
def deduplicate_records (records : List WeatherRecord) : List WeatherRecord :=
  (records.foldl dedupStep []).map (fun kv => kv.2.1)

/-- `datetime(2020, 1, 1)` — the "beginning of time" sentinel used on the
first ever Stage-1 run — as epoch seconds. -/
def beginningOfTime : Nat := 1577836800

/-- The `last_run` query of `transform_bronze_to_silver`: the most recent
`success` entry named `"bronze_to_silver"` (the head of the newest-first
log list after filtering), if any. -/
def effectiveCheckpoint (logs : List TransformationLog) : Option Nat :=
  ((logs.filter (fun l =>
      l.transformation_name == "bronze_to_silver" && l.status == "success")).head?).map
    (fun l => l.last_processed_timestamp)

/-- `cutoff_time`: the effective checkpoint, or the sentinel on the first
ever run. -/
def cutoffOf (logs : List TransformationLog) : Nat :=
  (effectiveCheckpoint logs).getD beginningOfTime

/-- `order_by(WeatherRecord.timestamp.asc())`: a stable ascending sort by
timestamp (records with equal timestamps keep their stored order). -/
def sortByTimestamp (l : List WeatherRecord) : List WeatherRecord :=
  l.insertionSort (fun a b => a.timestamp ≤ b.timestamp)

/-- The `bronze_records` query: rows with timestamp strictly above the
cutoff, ordered ascending by timestamp. -/
def readWindow (bronze : List WeatherRecord) (cutoff : Nat) : List WeatherRecord :=
  sortByTimestamp (bronze.filter (fun r => decide (cutoff < r.timestamp)))

/-- Building the `WeatherRecordSilver` row from a bronze row inside the
Stage-1 loop (`processed_at` defaults to the current time). -/
def makeSilver (r : WeatherRecord) (now : Nat) : WeatherRecordSilver :=
  { city := r.city
    country := r.country
    temperature := r.temperature
    feels_like := r.feels_like
    humidity := r.humidity
    description := r.description
    wind_speed := r.wind_speed
    wind_direction := r.wind_direction
    pressure := r.pressure
    visibility := r.visibility
    timestamp := r.timestamp
    processed_at := now
    bronze_record_id := r.id
    data_quality_flag := (validate_record r).1
    data_quality_notes := (validate_record r).2 }

/-- The per-record loop of `transform_bronze_to_silver`: the session has
`autoflush=False`, so the `existing` guard query sees only the committed
silver rows, never the pending inserts accumulated by the loop itself.
Returns the pending inserts in creation order. -/
def newSilverRecords (committed : List WeatherRecordSilver)
    (recs : List WeatherRecord) (now : Nat) : List WeatherRecordSilver :=
  recs.foldl
    (fun pending r =>
      if committed.any (fun s => s.bronze_record_id == r.id) then pending
      else pending ++ [makeSilver r now])
    []

/-- `max([r.timestamp for r in bronze_records]) if bronze_records else
cutoff_time`. -/
def maxTimestamp (cutoff : Nat) : List WeatherRecord → Nat
  | [] => cutoff
  | r :: rs => rs.foldl (fun m s => max m s.timestamp) r.timestamp

/-- `transform_bronze_to_silver` from `transform_bronze_to_silver.py`.

`failAt = none` is a run in which no exception fires: read the window from
the checkpoint cutoff, return early if it is empty, deduplicate, create a
silver row per surviving record not already referenced, commit, then append
a `success` checkpoint whose high-water mark is the maximum timestamp of the
whole window.  The returned `Bool` is `true` (no exception escaped).

`failAt = some k` models an exception thrown inside the per-record loop after
`k` surviving records were handled: the `except` handler appends a `failed`
checkpoint carrying the previous cutoff and a zero count, and its
`db.commit()` flushes that entry together with the silver rows still pending
in the session (the subsequent `db.rollback()` has nothing left to undo); the
exception is then re-raised, so the returned `Bool` is `false`. -/
def transform_bronze_to_silver (db : DB) (now : Nat) (failAt : Option Nat) :
    DB × Bool :=
  let cutoff := cutoffOf db.transformation_logs
  let bronze_records := readWindow db.weather_records cutoff
  if bronze_records = [] then (db, true)
  else
    let unique_records := deduplicate_records bronze_records
    match failAt with
    | some k =>
        let pending := newSilverRecords db.weather_records_silver
          (unique_records.take k) now
        ({ db with
            weather_records_silver := db.weather_records_silver ++ pending
            transformation_logs :=
              { transformation_name := "bronze_to_silver"
                last_processed_timestamp := cutoff
                run_timestamp := now
                records_processed := 0
                status := "failed" } :: db.transformation_logs },
          false)
    | none =>
        let pending := newSilverRecords db.weather_records_silver
          unique_records now
        ({ db with
            weather_records_silver := db.weather_records_silver ++ pending
            transformation_logs :=
              { transformation_name := "bronze_to_silver"
                last_processed_timestamp := maxTimestamp cutoff bronze_records
                run_timestamp := now
                records_processed := pending.length
                status := "success" } :: db.transformation_logs },
          true)

/-- `rebuild_silver` from `rebuild_silver.py`, first half: delete every
silver row and every checkpoint named `"bronze_to_silver"`, commit. -/
def clearSilver (db : DB) : DB :=
  { db with
      weather_records_silver := []
      transformation_logs := db.transformation_logs.filter
        (fun l => !(l.transformation_name == "bronze_to_silver")) }

/-- `rebuild_silver` from `rebuild_silver.py`: clear the silver layer and its
checkpoints, then run Stage 1 (which, finding no checkpoint, starts from the
beginning-of-time sentinel). -/
def rebuild_silver (db : DB) (now : Nat) : DB :=
  (transform_bronze_to_silver (clearSilver db) now none).1

/-- `timestamp.date()` as a day number. -/
def dateOf (t : Nat) : Nat := t / 86400

/-- Floor of a rational; denominators are positive so `Int.fdiv` is exact. -/
def qfloor (q : ℚ) : Int := Int.fdiv q.num q.den

/-- Round a rational to the nearest integer, halves to even — the behaviour
of Python `round` on an exactly-representable value. -/
def roundHalfEven (q : ℚ) : Int :=
  let f := qfloor q
  let frac := q - (f : ℚ)
  if frac < 1/2 then f
  else if 1/2 < frac then f + 1
  else if f % 2 = 0 then f else f + 1

/-- Python `round(x, 2)`. -/
def round2 (q : ℚ) : ℚ :=
  (roundHalfEven (q * 100) : ℚ) / 100

/-- Python `max` on a list of rationals (source only calls it on non-empty
lists; on `[]` we return `0`). -/
def qmax : List ℚ → ℚ
  | [] => 0
  | x :: xs => xs.foldl max x

/-- Python `min` on a list of rationals. -/
def qmin : List ℚ → ℚ
  | [] => 0
  | x :: xs => xs.foldl min x

/-- Python `max` on a list of integers. -/
def zmax : List Int → Int
  | [] => 0
  | x :: xs => xs.foldl max x

/-- Python `min` on a list of integers. -/
def zmin : List Int → Int
  | [] => 0
  | x :: xs => xs.foldl min x

/-- Python `sum` on rationals. -/
def qsum (l : List ℚ) : ℚ := l.foldl (fun a b => a + b) 0

/-- Python `sum` on integers. -/
def zsum (l : List Int) : Int := l.foldl (fun a b => a + b) 0

/-- The distinct values of a list in first-occurrence order — the key order
of `collections.Counter(l)`. -/
def firstOccurrences (l : List String) : List String :=
  l.foldl (fun acc s => if s ∈ acc then acc else acc ++ [s]) []

/-- `Counter(l).most_common(1)[0][0]`: the value with the greatest
multiplicity; `most_common` sorts stably by descending count over the
insertion-ordered keys, so ties go to the first-encountered value. -/
def mostCommon (l : List String) : Option String :=
  match firstOccurrences l with
  | [] => none
  | k :: ks =>
      some (ks.foldl (fun best s => if l.count best < l.count s then s else best) k)

/-- The per-group accumulator dict built by the grouping loop of
`transform_silver_to_gold`. -/
structure GoldGroup where
  city : String
  country : String
  date : Nat
  temperatures : List ℚ
  humidities : List Int
  wind_speeds : List ℚ
  descriptions : List String
  total_readings : Nat
  valid_readings : Nat
deriving DecidableEq, Repr

/-- The fresh accumulator created when a `(city, date)` key is first seen. -/
def emptyGroup (r : WeatherRecordSilver) (d : Nat) : GoldGroup :=
  { city := r.city
    country := r.country
    date := d
    temperatures := []
    humidities := []
    wind_speeds := []
    descriptions := []
    total_readings := 0
    valid_readings := 0 }

/-- Appending one silver record to its group accumulator. -/
def addToGroup (g : GoldGroup) (r : WeatherRecordSilver) : GoldGroup :=
  { g with
      temperatures := g.temperatures ++ [r.temperature]
      humidities := g.humidities ++ [r.humidity]
      wind_speeds := g.wind_speeds ++ [r.wind_speed]
      descriptions := g.descriptions ++ [r.description]
      total_readings := g.total_readings + 1
      valid_readings :=
        if r.data_quality_flag == "valid" then g.valid_readings + 1
        else g.valid_readings }

/-- One iteration of the grouping loop of `transform_silver_to_gold`. -/
def goldStep (acc : List ((String × Nat) × GoldGroup))
    (r : WeatherRecordSilver) : List ((String × Nat) × GoldGroup) :=
  let d := dateOf r.timestamp
  let key := (r.city, d)
  match alookup key acc with
  | none => acc ++ [(key, addToGroup (emptyGroup r d) r)]
  | some g => aupdate key (addToGroup g r) acc

/-- The aggregated field values computed from one group (shared verbatim by
the create and the update branch of the upsert). -/
def setGoldFields (g : WeatherDailyGold) (data : GoldGroup) : WeatherDailyGold :=
  { g with
      avg_temperature := round2 (qsum data.temperatures / (data.temperatures.length : ℚ))
      max_temperature := round2 (qmax data.temperatures)
      min_temperature := round2 (qmin data.temperatures)
      avg_humidity := Int.fdiv (zsum data.humidities) (data.humidities.length : Int)
      max_humidity := zmax data.humidities
      min_humidity := zmin data.humidities
      avg_wind_speed := round2 (qsum data.wind_speeds / (data.wind_speeds.length : ℚ))
      most_common_description := (mostCommon data.descriptions).getD ""
      total_readings := data.total_readings
      valid_readings := data.valid_readings }

/-- The brand-new gold row built in the create branch of the upsert. -/
def newGoldRecord (data : GoldGroup) (now : Nat) : WeatherDailyGold :=
  setGoldFields
    { city := data.city
      country := data.country
      date := data.date
      avg_temperature := 0
      max_temperature := 0
      min_temperature := 0
      avg_humidity := 0
      max_humidity := 0
      min_humidity := 0
      avg_wind_speed := 0
      avg_pressure := none
      avg_visibility := none
      most_common_description := ""
      total_readings := 0
      valid_readings := 0
      created_at := now }
    data

/-- Mutating the first row matching the filter in place —
`db.query(...).filter(city).filter(date).first()` followed by attribute
assignments on the returned object. -/
def updateFirstGold (key : String × Nat) (data : GoldGroup) :
    List WeatherDailyGold → List WeatherDailyGold
  | [] => []
  | g :: rest =>
      if g.city = key.1 ∧ g.date = key.2 then setGoldFields g data :: rest
      else g :: updateFirstGold key data rest

/-- The upsert body of `transform_silver_to_gold`: update the first existing
`(city, date)` row, or add a new one. -/
def upsertGold (gold : List WeatherDailyGold) (key : String × Nat)
    (data : GoldGroup) (now : Nat) : List WeatherDailyGold :=
  if gold.any (fun g => g.city == key.1 && g.date == key.2) then
    updateFirstGold key data gold
  else
    gold ++ [newGoldRecord data now]

/-- The `silver_records` query of `transform_silver_to_gold`: rows whose
calendar date lies between `start_date = today - days_back` and `today`. -/
def silverWindow (silver : List WeatherRecordSilver) (today days_back : Nat) :
    List WeatherRecordSilver :=
  silver.filter
    (fun r => decide (today - days_back ≤ dateOf r.timestamp) &&
              decide (dateOf r.timestamp ≤ today))

/-- `transform_silver_to_gold` from `transform_silver_to_gold.py`.

`today` is `datetime.utcnow().date()` as a day number and `days_back` the
lookback parameter (default 7); `now` is the clock used for `created_at`.
Reads the silver rows whose date lies in `[today - days_back, today]`, groups
them by `(city, date)` in encounter order, and upserts one gold row per
group. -/
def transform_silver_to_gold (db : DB) (today days_back now : Nat) : DB :=
  let silver_records := silverWindow db.weather_records_silver today days_back
  if silver_records = [] then db
  else
    let grouped_data := silver_records.foldl goldStep []
    { db with
        weather_daily_gold :=
          grouped_data.foldl
            (fun gold kv => upsertGold gold kv.1 kv.2 now)
            db.weather_daily_gold }

/-- Reference description of the dedup tie-break rule: among the records of
`records` with grouping key `key`, the one whose timestamp is closest to the
top of the hour, a strict fold so that the earliest-seen record wins ties. -/
def keptFor (key : String × Nat) (records : List WeatherRecord) :
    Option WeatherRecord :=
  match records.filter (fun r => dedupKey r == key) with
  | [] => none
  | r :: rs =>
      some (rs.foldl
        (fun best s =>
          if hourDistance s.timestamp < hourDistance best.timestamp then s
          else best)
        r)

/-- The silver rows of one `(city, date)` aggregation group, in encounter
order. -/
def groupRecords (key : String × Nat) (l : List WeatherRecordSilver) :
    List WeatherRecordSilver :=
  l.filter (fun r => r.city == key.1 && decide (dateOf r.timestamp = key.2))

/-- The row returned by the gold upsert's `first()` query. -/
def firstMatch (key : String × Nat) : List WeatherDailyGold → Option WeatherDailyGold
  | [] => none
  | g :: rest =>
      if g.city = key.1 ∧ g.date = key.2 then some g else firstMatch key rest

/-- The gold key `(city, date)`. -/
def goldKey (g : WeatherDailyGold) : String × Nat := (g.city, g.date)

/-- Loop invariant of `deduplicate_records`: after folding `dedupStep` over a
prefix `p`, the accumulator has pairwise distinct keys that are exactly the
keys occurring in `p`, and each entry holds the tie-break winner for its key
together with that winner's distance metadata. -/
def DedupInv (p : List WeatherRecord)
    (acc : List ((String × Nat) × (WeatherRecord × Nat))) : Prop :=
  (acc.map Prod.fst).Nodup ∧
  (∀ key, key ∈ acc.map Prod.fst ↔ key ∈ p.map dedupKey) ∧
  (∀ kv ∈ acc, kv.1 = dedupKey kv.2.1 ∧ keptFor kv.1 p = some kv.2.1 ∧
    kv.2.2 = hourDistance kv.2.1.timestamp)

/-- The contents a group accumulator must hold when the rows of its group,
in encounter order, are `q`. -/
def GroupData (key : String × Nat) (g : GoldGroup)
    (q : List WeatherRecordSilver) : Prop :=
  g.city = key.1 ∧ g.date = key.2 ∧
  g.temperatures = q.map (fun r => r.temperature) ∧
  g.humidities = q.map (fun r => r.humidity) ∧
  g.wind_speeds = q.map (fun r => r.wind_speed) ∧
  g.descriptions = q.map (fun r => r.description) ∧
  g.total_readings = q.length ∧
  g.valid_readings = (q.filter (fun r => r.data_quality_flag == "valid")).length

/-- Loop invariant of the grouping pass of `transform_silver_to_gold`: the
accumulator keys are exactly the `(city, date)` pairs of the processed prefix
`p`, pairwise distinct, and each group holds precisely the data of the rows
of `p` with its key, in encounter order. -/
def GoldInv (p : List WeatherRecordSilver)
    (acc : List ((String × Nat) × GoldGroup)) : Prop :=
  (acc.map Prod.fst).Nodup ∧
  (∀ key, key ∈ acc.map Prod.fst ↔
    key ∈ p.map (fun r => (r.city, dateOf r.timestamp))) ∧
  (∀ kv ∈ acc, GroupData kv.1 kv.2 (groupRecords kv.1 p))

/-- The aggregate field values the claim ascribes to a group, stated against
the raw group data. -/
def AggFields (g : WeatherDailyGold) (data : GoldGroup) : Prop :=
  g.avg_temperature =
    round2 (qsum data.temperatures / (data.temperatures.length : ℚ)) ∧
  g.max_temperature = round2 (qmax data.temperatures) ∧
  g.min_temperature = round2 (qmin data.temperatures) ∧
  g.avg_humidity = Int.fdiv (zsum data.humidities) (data.humidities.length : Int) ∧
  g.max_humidity = zmax data.humidities ∧
  g.min_humidity = zmin data.humidities ∧
  g.avg_wind_speed = round2 (qsum data.wind_speeds / (data.wind_speeds.length : ℚ)) ∧
  g.most_common_description = (mostCommon data.descriptions).getD "" ∧
  g.total_readings = data.total_readings ∧
  g.valid_readings = data.valid_readings

/-- A bronze reading used by the concrete witnesses. -/
def bronzeReading (i t : Nat) (temp : ℚ) : WeatherRecord :=
  { id := i
    city := "Brisbane"
    country := "AU"
    temperature := temp
    feels_like := temp
    humidity := 60
    description := "clear sky"
    wind_speed := 3
    wind_direction := 90
    pressure := 1012
    visibility := 10
    timestamp := t }

/-- Witness database for the Stage-1 claims: two bronze readings in distinct
hour buckets, everything else empty. -/
def dbStage1Witness : DB :=
  { weather_records := [bronzeReading 1 1600000000 28, bronzeReading 2 1600004000 31]
    weather_records_silver := []
    transformation_logs := []
    weather_daily_gold := []
    weather_analytics_layer := []
    weather_reporting := []
    batch_logs := [] }

/-- Witness records for the dedup tie-break: a 13:58 reading seen before a
13:03 reading of the same entity and hour. -/
def dedupWitnessRecords : List WeatherRecord :=
  [bronzeReading 1 50280 28, bronzeReading 2 46980 31]

/-- A silver reading used by the Stage-2 witnesses. -/
def silverReading (t : Nat) (temp : ℚ) : WeatherRecordSilver :=
  { city := "X"
    country := "AU"
    temperature := temp
    feels_like := temp
    humidity := 50
    description := "clear"
    wind_speed := 3
    wind_direction := 90
    pressure := 1012
    visibility := 10
    timestamp := t
    processed_at := 0
    bronze_record_id := t
    data_quality_flag := "valid"
    data_quality_notes := none }

/-- Witness database for the Stage-2 claims: three valid readings for entity
`"X"` on day 1 with temperatures 10, 20, 30. -/
def dbStage2Witness : DB :=
  { weather_records := []
    weather_records_silver :=
      [silverReading 90000 10, silverReading 93600 20, silverReading 97200 30]
    transformation_logs := []
    weather_daily_gold := []
    weather_analytics_layer := []
    weather_reporting := []
    batch_logs := [] }

theorem sortByTimestamp_perm (l : List WeatherRecord) :
    (sortByTimestamp l).Perm l :=
  List.perm_insertionSort _ l

theorem mem_sortByTimestamp {r : WeatherRecord} {l : List WeatherRecord} :
    r ∈ sortByTimestamp l ↔ r ∈ l :=
  (sortByTimestamp_perm l).mem_iff

theorem sortByTimestamp_eq_nil_iff {l : List WeatherRecord} :
    sortByTimestamp l = [] ↔ l = [] := by
  rw [← List.length_eq_zero, ← List.length_eq_zero,
    (sortByTimestamp_perm l).length_eq]

theorem mem_readWindow {r : WeatherRecord} {bronze : List WeatherRecord}
    {cutoff : Nat} :
    r ∈ readWindow bronze cutoff ↔ r ∈ bronze ∧ cutoff < r.timestamp := by
  rw [readWindow, mem_sortByTimestamp, List.mem_filter]
  simp

theorem readWindow_eq_nil_iff {bronze : List WeatherRecord} {cutoff : Nat} :
    readWindow bronze cutoff = [] ↔
      bronze.filter (fun r => decide (cutoff < r.timestamp)) = [] :=
  sortByTimestamp_eq_nil_iff

theorem le_foldl_max_ts (rs : List WeatherRecord) (a : Nat) :
    a ≤ rs.foldl (fun m s => max m s.timestamp) a := by
  induction rs generalizing a with
  | nil => exact le_refl a
  | cons s t ih =>
      exact le_trans (le_max_left a s.timestamp) (ih (max a s.timestamp))

theorem mem_le_foldl_max_ts {s : WeatherRecord} {rs : List WeatherRecord}
    (hs : s ∈ rs) (a : Nat) :
    s.timestamp ≤ rs.foldl (fun m s => max m s.timestamp) a := by
  induction rs generalizing a with
  | nil => cases hs
  | cons x t ih =>
      rcases List.mem_cons.mp hs with h | h
      · subst h
        exact le_trans (le_max_right a s.timestamp) (le_foldl_max_ts t _)
      · exact ih h (max a x.timestamp)

theorem foldl_max_ts_mem (rs : List WeatherRecord) (a : Nat) :
    rs.foldl (fun m s => max m s.timestamp) a = a ∨
      ∃ s ∈ rs, rs.foldl (fun m s => max m s.timestamp) a = s.timestamp := by
  induction rs generalizing a with
  | nil => exact Or.inl rfl
  | cons x t ih =>
      have hstep : (x :: t).foldl (fun m s => max m s.timestamp) a =
          t.foldl (fun m s => max m s.timestamp) (max a x.timestamp) := rfl
      rcases ih (max a x.timestamp) with h | ⟨s, hs, h⟩
      · rcases max_choice a x.timestamp with hm | hm
        · exact Or.inl (by rw [hstep, h, hm])
        · exact Or.inr ⟨x, List.mem_cons_self x t, by rw [hstep, h, hm]⟩
      · exact Or.inr ⟨s, List.mem_cons_of_mem x hs, by rw [hstep, h]⟩

theorem maxTimestamp_mem (c : Nat) {l : List WeatherRecord} (h : l ≠ []) :
    ∃ r ∈ l, maxTimestamp c l = r.timestamp := by
  cases l with
  | nil => exact absurd rfl h
  | cons x t =>
      rcases foldl_max_ts_mem t x.timestamp with h1 | ⟨s, hs, h1⟩
      · exact ⟨x, List.mem_cons_self x t, h1⟩
      · exact ⟨s, List.mem_cons_of_mem x hs, h1⟩

theorem le_maxTimestamp (c : Nat) {r : WeatherRecord} {l : List WeatherRecord}
    (hr : r ∈ l) : r.timestamp ≤ maxTimestamp c l := by
  cases l with
  | nil => cases hr
  | cons x t =>
      rcases List.mem_cons.mp hr with h | h
      · subst h; exact le_foldl_max_ts t r.timestamp
      · exact mem_le_foldl_max_ts h x.timestamp

theorem effectiveCheckpoint_success_cons (logs : List TransformationLog)
    (hwm now n : Nat) :
    effectiveCheckpoint
      ({ transformation_name := "bronze_to_silver"
         last_processed_timestamp := hwm
         run_timestamp := now
         records_processed := n
         status := "success" } :: logs) = some hwm := by
  simp [effectiveCheckpoint]

theorem cutoffOf_success_cons (logs : List TransformationLog) (hwm now n : Nat) :
    cutoffOf
      ({ transformation_name := "bronze_to_silver"
         last_processed_timestamp := hwm
         run_timestamp := now
         records_processed := n
         status := "success" } :: logs) = hwm := by
  rw [cutoffOf, effectiveCheckpoint_success_cons]; rfl

theorem effectiveCheckpoint_failed_cons (logs : List TransformationLog)
    (hwm now n : Nat) :
    effectiveCheckpoint
      ({ transformation_name := "bronze_to_silver"
         last_processed_timestamp := hwm
         run_timestamp := now
         records_processed := n
         status := "failed" } :: logs) = effectiveCheckpoint logs := by
  simp [effectiveCheckpoint]

theorem cutoffOf_failed_cons (logs : List TransformationLog) (hwm now n : Nat) :
    cutoffOf
      ({ transformation_name := "bronze_to_silver"
         last_processed_timestamp := hwm
         run_timestamp := now
         records_processed := n
         status := "failed" } :: logs) = cutoffOf logs := by
  rw [cutoffOf, effectiveCheckpoint_failed_cons]; rfl

/-- C6 counterexample: at the boundary temperature 60.0 the code returns
`suspect`, not `valid` as the claim states (60.0 is inside the absolute
range `-50 ≤ t ≤ 60` but outside the common range `-30 ≤ t ≤ 50`, so the
second branch of `validate_temperature` fires). -/
theorem validate_temperature_60_not_valid :
    (validate_temperature 60).1 = "suspect" ∧
      ¬(validate_temperature 60).1 = "valid" := by
  refine ⟨rfl, fun h => ?_⟩
  have hs : ("suspect" : String) = "valid" := by
    calc ("suspect" : String) = (validate_temperature 60).1 := rfl
    _ = "valid" := h
  exact absurd hs (by decide)

/-- C6 amended: the boundary verdicts are temperature 60.0 ⇒ `suspect`
(not `valid`), 60.1 ⇒ `invalid`, 50.1 ⇒ `suspect`, humidity 100 ⇒ `valid`,
101 ⇒ `invalid`; in general a temperature strictly outside the absolute
plausible range [-50, 60] is `invalid`, one inside it but strictly outside
the common range [-30, 50] is `suspect`, and one inside [-30, 50] is
`valid`, while a humidity strictly outside [0, 100] is `invalid` and one
inside [0, 100] is `valid`. -/
theorem validate_boundaries (t : ℚ) (h : ℤ) :
    (validate_temperature 60).1 = "suspect" ∧
    (validate_temperature (601/10)).1 = "invalid" ∧
    (validate_temperature (501/10)).1 = "suspect" ∧
    (validate_humidity 100).1 = "valid" ∧
    (validate_humidity 101).1 = "invalid" ∧
    ((t < -50 ∨ 60 < t) → (validate_temperature t).1 = "invalid") ∧
    (-50 ≤ t → t ≤ 60 → (t < -30 ∨ 50 < t) →
      (validate_temperature t).1 = "suspect") ∧
    (-30 ≤ t → t ≤ 50 → (validate_temperature t).1 = "valid") ∧
    ((h < 0 ∨ 100 < h) → (validate_humidity h).1 = "invalid") ∧
    (0 ≤ h → h ≤ 100 → (validate_humidity h).1 = "valid") := by
  refine ⟨rfl, by norm_num [validate_temperature], by norm_num [validate_temperature],
    rfl, rfl, ?_, ?_, ?_, ?_, ?_⟩
  · intro ht
    rw [validate_temperature, if_pos (by exact_mod_cast ht)]
  · intro h1 h2 h3
    rw [validate_temperature, if_neg (by push_neg; constructor <;> linarith),
      if_pos h3]
  · intro h1 h2
    rw [validate_temperature, if_neg (by push_neg; constructor <;> linarith),
      if_neg (by push_neg; constructor <;> linarith)]
  · intro hh
    rw [validate_humidity, if_pos hh]
  · intro h1 h2
    rw [validate_humidity, if_neg (by push_neg; exact ⟨h1, h2⟩)]

/-- Concrete instantiation of `validate_boundaries` at temperature 70 and
humidity 200. -/
theorem validate_boundaries_witness :
    (validate_temperature 70).1 = "invalid" ∧
      (validate_humidity 200).1 = "invalid" :=
  ⟨(validate_boundaries 70 200).2.2.2.2.2.1 (by norm_num),
   (validate_boundaries 70 200).2.2.2.2.2.2.2.2.1 (by norm_num)⟩

theorem transform_eq_of_empty (db : DB) (now : Nat) (failAt : Option Nat)
    (h : readWindow db.weather_records (cutoffOf db.transformation_logs) = []) :
    transform_bronze_to_silver db now failAt = (db, true) := by
  simp [transform_bronze_to_silver, h]

theorem transform_eq_success (db : DB) (now : Nat)
    (h : ¬readWindow db.weather_records (cutoffOf db.transformation_logs) = []) :
    transform_bronze_to_silver db now none =
      ({ db with
          weather_records_silver := db.weather_records_silver ++
            newSilverRecords db.weather_records_silver
              (deduplicate_records
                (readWindow db.weather_records (cutoffOf db.transformation_logs)))
              now
          transformation_logs :=
            { transformation_name := "bronze_to_silver"
              last_processed_timestamp :=
                maxTimestamp (cutoffOf db.transformation_logs)
                  (readWindow db.weather_records (cutoffOf db.transformation_logs))
              run_timestamp := now
              records_processed :=
                (newSilverRecords db.weather_records_silver
                  (deduplicate_records
                    (readWindow db.weather_records
                      (cutoffOf db.transformation_logs)))
                  now).length
              status := "success" } :: db.transformation_logs },
        true) := by
  simp [transform_bronze_to_silver, h]

theorem transform_eq_failed (db : DB) (now k : Nat)
    (h : ¬readWindow db.weather_records (cutoffOf db.transformation_logs) = []) :
    transform_bronze_to_silver db now (some k) =
      ({ db with
          weather_records_silver := db.weather_records_silver ++
            newSilverRecords db.weather_records_silver
              ((deduplicate_records
                (readWindow db.weather_records
                  (cutoffOf db.transformation_logs))).take k)
              now
          transformation_logs :=
            { transformation_name := "bronze_to_silver"
              last_processed_timestamp := cutoffOf db.transformation_logs
              run_timestamp := now
              records_processed := 0
              status := "failed" } :: db.transformation_logs },
        false) := by
  simp [transform_bronze_to_silver, h]

/-- C1: Stage 1 is idempotent — after one successful run, a second run with
no new raw data finds an empty window (the checkpoint advanced past every
record it read), so it leaves the database exactly as it was: no new
CleanRecords and no new CheckpointEntry. -/
theorem stage1_idempotent (db : DB) (now now' : Nat) :
    transform_bronze_to_silver (transform_bronze_to_silver db now none).1 now' none
      = ((transform_bronze_to_silver db now none).1, true) := by
  by_cases h : readWindow db.weather_records (cutoffOf db.transformation_logs) = []
  · rw [transform_eq_of_empty db now none h]
    exact transform_eq_of_empty db now' none h
  · rw [transform_eq_success db now h]
    apply transform_eq_of_empty
    show readWindow db.weather_records
        (cutoffOf
          ({ transformation_name := "bronze_to_silver", .. } :: db.transformation_logs)) = []
    rw [cutoffOf_success_cons, readWindow_eq_nil_iff, List.filter_eq_nil_iff]
    intro r hr
    simp only [decide_eq_true_eq]
    by_cases hc : cutoffOf db.transformation_logs < r.timestamp
    · have hmem : r ∈ readWindow db.weather_records (cutoffOf db.transformation_logs) :=
        mem_readWindow.mpr ⟨hr, hc⟩
      have := le_maxTimestamp (cutoffOf db.transformation_logs) hmem
      omega
    · obtain ⟨s, hs, hmax⟩ := maxTimestamp_mem (cutoffOf db.transformation_logs) h
      have hcs : cutoffOf db.transformation_logs < s.timestamp :=
        (mem_readWindow.mp hs).2
      omega

/-- C2: a successful Stage-1 run over a non-empty window appends a `success`
CheckpointEntry whose high-water mark is the maximum timestamp over *all*
raw records read in the window (every record with timestamp above the
cutoff), not merely the deduplication survivors or the CleanRecords
created. -/
theorem stage1_success_highwater (db : DB) (now : Nat)
    (h : db.weather_records.filter
      (fun r => decide (cutoffOf db.transformation_logs < r.timestamp)) ≠ []) :
    ∃ l : TransformationLog,
      (transform_bronze_to_silver db now none).1.transformation_logs =
        l :: db.transformation_logs ∧
      l.transformation_name = "bronze_to_silver" ∧
      l.status = "success" ∧
      l.last_processed_timestamp ∈
        (db.weather_records.filter
          (fun r => decide (cutoffOf db.transformation_logs < r.timestamp))).map
          (fun r => r.timestamp) ∧
      ∀ r ∈ db.weather_records.filter
          (fun r => decide (cutoffOf db.transformation_logs < r.timestamp)),
        r.timestamp ≤ l.last_processed_timestamp := by
  have hw : ¬readWindow db.weather_records (cutoffOf db.transformation_logs) = [] := by
    rw [readWindow_eq_nil_iff]; exact h
  rw [transform_eq_success db now hw]
  refine ⟨_, rfl, rfl, rfl, ?_, ?_⟩
  · obtain ⟨s, hs, hmax⟩ := maxTimestamp_mem (cutoffOf db.transformation_logs) hw
    have : s ∈ db.weather_records.filter
        (fun r => decide (cutoffOf db.transformation_logs < r.timestamp)) := by
      rw [List.mem_filter]
      have := mem_readWindow.mp hs
      exact ⟨this.1, by simpa using this.2⟩
    exact List.mem_map.mpr ⟨s, this, hmax.symm⟩
  · intro r hr
    rw [List.mem_filter] at hr
    exact le_maxTimestamp _ (mem_readWindow.mpr ⟨hr.1, by simpa using hr.2⟩)

/-- Instantiation of `stage1_success_highwater` on the two-reading witness
database: the appended checkpoint records the later of the two
timestamps. -/
theorem stage1_success_highwater_witness :
    ∃ l : TransformationLog,
      (transform_bronze_to_silver dbStage1Witness 7 none).1.transformation_logs =
        l :: dbStage1Witness.transformation_logs ∧
      l.transformation_name = "bronze_to_silver" ∧
      l.status = "success" ∧
      l.last_processed_timestamp ∈
        (dbStage1Witness.weather_records.filter
          (fun r => decide (cutoffOf dbStage1Witness.transformation_logs < r.timestamp))).map
          (fun r => r.timestamp) ∧
      ∀ r ∈ dbStage1Witness.weather_records.filter
          (fun r => decide (cutoffOf dbStage1Witness.transformation_logs < r.timestamp)),
        r.timestamp ≤ l.last_processed_timestamp :=
  stage1_success_highwater dbStage1Witness 7 (by decide)

/-- C3: a Stage-1 run that throws after reading a non-empty window appends a
`failed` CheckpointEntry carrying the previous cutoff and a zero count, and
re-raises; the effective checkpoint (read from `success` entries only) is
unchanged, so the next run reads exactly the same window. -/
theorem stage1_failure_semantics (db : DB) (now k : Nat)
    (h : db.weather_records.filter
      (fun r => decide (cutoffOf db.transformation_logs < r.timestamp)) ≠ []) :
    (transform_bronze_to_silver db now (some k)).2 = false ∧
    (transform_bronze_to_silver db now (some k)).1.transformation_logs =
      { transformation_name := "bronze_to_silver"
        last_processed_timestamp := cutoffOf db.transformation_logs
        run_timestamp := now
        records_processed := 0
        status := "failed" } :: db.transformation_logs ∧
    effectiveCheckpoint
        (transform_bronze_to_silver db now (some k)).1.transformation_logs =
      effectiveCheckpoint db.transformation_logs ∧
    cutoffOf (transform_bronze_to_silver db now (some k)).1.transformation_logs =
      cutoffOf db.transformation_logs ∧
    (transform_bronze_to_silver db now (some k)).1.weather_records =
      db.weather_records ∧
    readWindow (transform_bronze_to_silver db now (some k)).1.weather_records
        (cutoffOf (transform_bronze_to_silver db now (some k)).1.transformation_logs) =
      readWindow db.weather_records (cutoffOf db.transformation_logs) := by
  have hw : ¬readWindow db.weather_records (cutoffOf db.transformation_logs) = [] := by
    rw [readWindow_eq_nil_iff]; exact h
  rw [transform_eq_failed db now k hw]
  refine ⟨rfl, rfl, ?_, ?_, rfl, ?_⟩
  · exact effectiveCheckpoint_failed_cons db.transformation_logs _ now 0
  · exact cutoffOf_failed_cons db.transformation_logs _ now 0
  · rw [show cutoffOf
        ({ transformation_name := "bronze_to_silver"
           last_processed_timestamp := cutoffOf db.transformation_logs
           run_timestamp := now
           records_processed := 0
           status := "failed" } :: db.transformation_logs) =
        cutoffOf db.transformation_logs from
      cutoffOf_failed_cons db.transformation_logs _ now 0]

/-- Instantiation of `stage1_failure_semantics` on the two-reading witness
database with the exception injected after the first surviving record. -/
theorem stage1_failure_semantics_witness :
    (transform_bronze_to_silver dbStage1Witness 7 (some 1)).2 = false ∧
    (transform_bronze_to_silver dbStage1Witness 7 (some 1)).1.transformation_logs =
      { transformation_name := "bronze_to_silver"
        last_processed_timestamp := cutoffOf dbStage1Witness.transformation_logs
        run_timestamp := 7
        records_processed := 0
        status := "failed" } :: dbStage1Witness.transformation_logs ∧
    effectiveCheckpoint
        (transform_bronze_to_silver dbStage1Witness 7 (some 1)).1.transformation_logs =
      effectiveCheckpoint dbStage1Witness.transformation_logs ∧
    cutoffOf
        (transform_bronze_to_silver dbStage1Witness 7 (some 1)).1.transformation_logs =
      cutoffOf dbStage1Witness.transformation_logs ∧
    (transform_bronze_to_silver dbStage1Witness 7 (some 1)).1.weather_records =
      dbStage1Witness.weather_records ∧
    readWindow (transform_bronze_to_silver dbStage1Witness 7 (some 1)).1.weather_records
        (cutoffOf
          (transform_bronze_to_silver dbStage1Witness 7 (some 1)).1.transformation_logs) =
      readWindow dbStage1Witness.weather_records
        (cutoffOf dbStage1Witness.transformation_logs) :=
  stage1_failure_semantics dbStage1Witness 7 1 (by decide)

/-- C5 is violated by the code: on the witness database a run that throws
inside the per-record loop after one CleanRecord has been staged re-raises
(`.2 = false`) — yet exactly one partial CleanRecord ends up persisted,
because the `except` handler's `db.commit()` (issued to persist the `failed`
CheckpointEntry, before the no-op `db.rollback()`) flushes the pending
insert as well.  The checkpoint part of the claim does hold: the effective
cutoff is unchanged. -/
theorem stage1_failure_commits_partial :
    (transform_bronze_to_silver dbStage1Witness 7 (some 1)).2 = false ∧
    (transform_bronze_to_silver dbStage1Witness 7 (some 1)).1.weather_records_silver.length = 1 ∧
    (transform_bronze_to_silver dbStage1Witness 7 (some 1)).1.weather_records_silver ≠
      dbStage1Witness.weather_records_silver ∧
    cutoffOf
        (transform_bronze_to_silver dbStage1Witness 7 (some 1)).1.transformation_logs =
      cutoffOf dbStage1Witness.transformation_logs := by
  decide

theorem alookup_eq_none_iff {κ ν : Type} [DecidableEq κ] (key : κ)
    (l : List (κ × ν)) : alookup key l = none ↔ key ∉ l.map Prod.fst := by
  induction l with
  | nil => simp [alookup]
  | cons kv rest ih =>
      obtain ⟨k, v⟩ := kv
      by_cases h : k = key
      · subst h; simp [alookup]
      · simp [alookup, h, ih, Ne.symm h]

theorem alookup_mem {κ ν : Type} [DecidableEq κ] {key : κ} {v : ν}
    {l : List (κ × ν)} (h : alookup key l = some v) : (key, v) ∈ l := by
  induction l with
  | nil => simp [alookup] at h
  | cons kv rest ih =>
      obtain ⟨k, w⟩ := kv
      by_cases hk : k = key
      · subst hk
        rw [alookup, if_pos rfl] at h
        injection h with h
        subst h
        exact List.mem_cons_self _ _
      · rw [alookup, if_neg hk] at h
        exact List.mem_cons_of_mem _ (ih h)

theorem aupdate_map_fst {κ ν : Type} [DecidableEq κ] (key : κ) (v : ν)
    (l : List (κ × ν)) : (aupdate key v l).map Prod.fst = l.map Prod.fst := by
  induction l with
  | nil => rfl
  | cons kv rest ih =>
      obtain ⟨k, w⟩ := kv
      by_cases h : k = key
      · subst h; simp [aupdate]
      · simp [aupdate, h, ih]

theorem mem_aupdate_nodup {κ ν : Type} [DecidableEq κ] {key : κ} {v : ν}
    {l : List (κ × ν)} (hnd : (l.map Prod.fst).Nodup) {kv : κ × ν}
    (h : kv ∈ aupdate key v l) :
    (kv = (key, v) ∧ key ∈ l.map Prod.fst) ∨ (kv ∈ l ∧ kv.1 ≠ key) := by
  induction l with
  | nil => simp [aupdate] at h
  | cons hd rest ih =>
      obtain ⟨k, w⟩ := hd
      rw [List.map_cons, List.nodup_cons] at hnd
      by_cases hk : k = key
      · subst hk
        rw [aupdate, if_pos rfl] at h
        rcases List.mem_cons.mp h with h | h
        · exact Or.inl ⟨h, by simp⟩
        · refine Or.inr ⟨List.mem_cons_of_mem _ h, fun hkey => hnd.1 ?_⟩
          rw [← hkey]
          exact List.mem_map.mpr ⟨kv, h, rfl⟩
      · rw [aupdate, if_neg hk] at h
        rcases List.mem_cons.mp h with h | h
        · subst h
          exact Or.inr ⟨List.mem_cons_self _ _, hk⟩
        · rcases ih hnd.2 h with ⟨h1, h2⟩ | ⟨h1, h2⟩
          · exact Or.inl ⟨h1, List.mem_cons_of_mem _ h2⟩
          · exact Or.inr ⟨List.mem_cons_of_mem _ h1, h2⟩

theorem keptFor_append_of_ne (key : String × Nat) (records : List WeatherRecord)
    (rec : WeatherRecord) (h : ¬dedupKey rec = key) :
    keptFor key (records ++ [rec]) = keptFor key records := by
  rw [keptFor, keptFor, List.filter_append]
  simp [h]

theorem keptFor_append_self_of_not_mem (records : List WeatherRecord)
    (rec : WeatherRecord) (h : dedupKey rec ∉ records.map dedupKey) :
    keptFor (dedupKey rec) (records ++ [rec]) = some rec := by
  rw [keptFor, List.filter_append]
  have hnil : records.filter (fun r => dedupKey r == dedupKey rec) = [] := by
    rw [List.filter_eq_nil_iff]
    intro r hr hbeq
    exact h (List.mem_map.mpr ⟨r, hr, by simpa using hbeq⟩)
  rw [hnil]
  simp

theorem keptFor_append_update {records : List WeatherRecord}
    {rec r0 : WeatherRecord} (h0 : keptFor (dedupKey rec) records = some r0) :
    keptFor (dedupKey rec) (records ++ [rec]) =
      some (if hourDistance rec.timestamp < hourDistance r0.timestamp then rec
        else r0) := by
  rw [keptFor] at h0
  rw [keptFor, List.filter_append]
  cases hf : records.filter (fun r => dedupKey r == dedupKey rec) with
  | nil => rw [hf] at h0; simp at h0
  | cons x xs =>
      rw [hf] at h0
      have hsingle : List.filter (fun r => dedupKey r == dedupKey rec) [rec] = [rec] := by
        simp
      rw [hsingle, List.cons_append]
      simp only [Option.some.injEq] at h0 ⊢
      rw [List.foldl_append, h0]
      rfl

theorem foldl_pick_mem (r : WeatherRecord) (rs : List WeatherRecord) :
    rs.foldl
      (fun best s =>
        if hourDistance s.timestamp < hourDistance best.timestamp then s
        else best)
      r ∈ r :: rs := by
  induction rs generalizing r with
  | nil => simp
  | cons x t ih =>
      rw [List.foldl_cons]
      by_cases h : hourDistance x.timestamp < hourDistance r.timestamp
      · rw [if_pos h]
        rcases List.mem_cons.mp (ih x) with h1 | h1
        · rw [h1]; simp
        · simp [h1]
      · rw [if_neg h]
        rcases List.mem_cons.mp (ih r) with h1 | h1
        · rw [h1]; simp
        · simp [h1]

theorem foldl_pick_min (r : WeatherRecord) (rs : List WeatherRecord) :
    hourDistance
        (rs.foldl
          (fun best s =>
            if hourDistance s.timestamp < hourDistance best.timestamp then s
            else best)
          r).timestamp ≤ hourDistance r.timestamp ∧
    ∀ s ∈ rs,
      hourDistance
        (rs.foldl
          (fun best s =>
            if hourDistance s.timestamp < hourDistance best.timestamp then s
            else best)
          r).timestamp ≤ hourDistance s.timestamp := by
  induction rs generalizing r with
  | nil => exact ⟨le_refl _, by simp⟩
  | cons x t ih =>
      rw [List.foldl_cons]
      by_cases h : hourDistance x.timestamp < hourDistance r.timestamp
      · rw [if_pos h]
        refine ⟨le_trans (ih x).1 (le_of_lt h), ?_⟩
        intro s hs
        rcases List.mem_cons.mp hs with h1 | h1
        · rw [h1]; exact (ih x).1
        · exact (ih x).2 s h1
      · rw [if_neg h]
        refine ⟨(ih r).1, ?_⟩
        intro s hs
        rcases List.mem_cons.mp hs with h1 | h1
        · rw [h1]; exact le_trans (ih r).1 (le_of_not_lt h)
        · exact (ih r).2 s h1

theorem keptFor_mem {key : String × Nat} {records : List WeatherRecord}
    {r : WeatherRecord} (h : keptFor key records = some r) :
    r ∈ records ∧ dedupKey r = key := by
  rw [keptFor] at h
  cases hf : records.filter (fun s => dedupKey s == key) with
  | nil => rw [hf] at h; simp at h
  | cons x xs =>
      rw [hf] at h
      simp only [Option.some.injEq] at h
      have hmem : r ∈ x :: xs := h ▸ foldl_pick_mem x xs
      rw [← hf] at hmem
      rw [List.mem_filter] at hmem
      exact ⟨hmem.1, by simpa using hmem.2⟩

theorem keptFor_min {key : String × Nat} {records : List WeatherRecord}
    {r : WeatherRecord} (h : keptFor key records = some r) :
    ∀ s ∈ records, dedupKey s = key →
      hourDistance r.timestamp ≤ hourDistance s.timestamp := by
  intro s hs hkey
  rw [keptFor] at h
  cases hf : records.filter (fun u => dedupKey u == key) with
  | nil => rw [hf] at h; simp at h
  | cons x xs =>
      rw [hf] at h
      simp only [Option.some.injEq] at h
      have hsf : s ∈ x :: xs := by
        rw [← hf, List.mem_filter]
        exact ⟨hs, by simpa using hkey⟩
      rcases List.mem_cons.mp hsf with h1 | h1
      · rw [← h, h1]
        exact (foldl_pick_min x xs).1
      · rw [← h]
        exact (foldl_pick_min x xs).2 s h1

theorem dedupInv_holds (p : List WeatherRecord) :
    DedupInv p (p.foldl dedupStep []) := by
  induction p using List.reverseRecOn with
  | nil =>
      refine ⟨List.nodup_nil, ?_, ?_⟩
      · intro key; simp
      · intro kv hkv; simp at hkv
  | append_singleton p rec ih =>
      obtain ⟨hnd, hkeys, hval⟩ := ih
      have hstep : (p ++ [rec]).foldl dedupStep [] =
          dedupStep (p.foldl dedupStep []) rec := by
        rw [List.foldl_append]; rfl
      set acc := p.foldl dedupStep [] with hacc
      rw [hstep]
      cases hl : alookup (dedupKey rec) acc with
      | none =>
          have hne : dedupKey rec ∉ acc.map Prod.fst :=
            (alookup_eq_none_iff _ _).mp hl
          have hnp : dedupKey rec ∉ p.map dedupKey := fun hc =>
            hne ((hkeys _).mpr hc)
          have hacc2 : dedupStep acc rec =
              acc ++ [(dedupKey rec, (rec, hourDistance rec.timestamp))] := by
            simp only [dedupStep, hl]
          rw [hacc2]
          refine ⟨?_, ?_, ?_⟩
          · rw [List.map_append, List.nodup_append]
            refine ⟨hnd, List.nodup_singleton _, ?_⟩
            intro a ha hb
            simp at hb
            subst hb
            exact hne ha
          · intro key
            rw [List.map_append, List.map_append, List.mem_append, List.mem_append]
            constructor
            · rintro (h | h)
              · exact Or.inl ((hkeys key).mp h)
              · simp at h; subst h; simp
            · rintro (h | h)
              · exact Or.inl ((hkeys key).mpr h)
              · simp at h; subst h; simp
          · intro kv hkv
            rcases List.mem_append.mp hkv with h | h
            · obtain ⟨h1, h2, h3⟩ := hval kv h
              have hkvne : ¬dedupKey rec = kv.1 := fun hc =>
                hne (hc ▸ List.mem_map.mpr ⟨kv, h, rfl⟩)
              exact ⟨h1, by
                rw [keptFor_append_of_ne _ _ _ (fun hc => hkvne (hc.symm ▸ rfl))]
                exact h2, h3⟩
            · simp at h
              subst h
              exact ⟨rfl, keptFor_append_self_of_not_mem p rec hnp, rfl⟩
      | some v =>
          obtain ⟨r0, d0⟩ := v
          have hmem0 : (dedupKey rec, (r0, d0)) ∈ acc := alookup_mem hl
          obtain ⟨hk0, hkept0, hd0⟩ := hval _ hmem0
          have hkeymem : dedupKey rec ∈ acc.map Prod.fst :=
            List.mem_map.mpr ⟨_, hmem0, rfl⟩
          have hkeys' : ∀ key, key ∈ acc.map Prod.fst ↔
              key ∈ (p ++ [rec]).map dedupKey := by
            intro key
            rw [List.map_append, List.mem_append]
            constructor
            · intro h; exact Or.inl ((hkeys key).mp h)
            · rintro (h | h)
              · exact (hkeys key).mpr h
              · simp at h; subst h; exact hkeymem
          by_cases hd : hourDistance rec.timestamp < d0
          · have hacc2 : dedupStep acc rec =
                aupdate (dedupKey rec) (rec, hourDistance rec.timestamp) acc := by
              simp only [dedupStep, hl, if_pos hd]
            rw [hacc2]
            refine ⟨by rw [aupdate_map_fst]; exact hnd,
              fun key => by rw [aupdate_map_fst]; exact hkeys' key, ?_⟩
            intro kv hkv
            rcases mem_aupdate_nodup hnd hkv with ⟨h1, _⟩ | ⟨h1, h2⟩
            · subst h1
              refine ⟨rfl, ?_, rfl⟩
              rw [keptFor_append_update hkept0,
                if_pos (show hourDistance rec.timestamp <
                  hourDistance r0.timestamp from hd0 ▸ hd)]
            · obtain ⟨g1, g2, g3⟩ := hval kv h1
              exact ⟨g1, by
                rw [keptFor_append_of_ne _ _ _ (fun hc => h2 hc.symm)]
                exact g2, g3⟩
          · have hacc2 : dedupStep acc rec = acc := by
              simp only [dedupStep, hl, if_neg hd]
            rw [hacc2]
            refine ⟨hnd, hkeys', ?_⟩
            intro kv hkv
            obtain ⟨g1, g2, g3⟩ := hval kv hkv
            by_cases hkey : kv.1 = dedupKey rec
            · have heq : kv = (dedupKey rec, (r0, d0)) :=
                List.inj_on_of_nodup_map hnd hkv hmem0 (by rw [hkey])
              rw [heq]
              refine ⟨hk0, ?_, hd0⟩
              rw [keptFor_append_update hkept0,
                if_neg (show ¬hourDistance rec.timestamp <
                  hourDistance r0.timestamp from hd0 ▸ hd)]
            · exact ⟨g1, by
                rw [keptFor_append_of_ne _ _ _ (fun hc => hkey hc.symm)]
                exact g2, g3⟩

theorem deduplicate_kept {records : List WeatherRecord} {r : WeatherRecord}
    (h : r ∈ deduplicate_records records) :
    keptFor (dedupKey r) records = some r := by
  rw [deduplicate_records] at h
  obtain ⟨kv, hkv, hr⟩ := List.mem_map.mp h
  obtain ⟨h1, h2, _⟩ := (dedupInv_holds records).2.2 kv hkv
  rw [← hr, ← h1]
  exact h2

theorem deduplicate_mem {records : List WeatherRecord} {r : WeatherRecord}
    (h : r ∈ deduplicate_records records) : r ∈ records :=
  (keptFor_mem (deduplicate_kept h)).1

theorem deduplicate_keys_nodup (records : List WeatherRecord) :
    ((deduplicate_records records).map dedupKey).Nodup := by
  rw [deduplicate_records, List.map_map]
  have : (records.foldl dedupStep []).map (dedupKey ∘ fun kv => kv.2.1) =
      (records.foldl dedupStep []).map Prod.fst :=
    List.map_congr_left fun kv hkv =>
      ((dedupInv_holds records).2.2 kv hkv).1.symm
  rw [this]
  exact (dedupInv_holds records).1

theorem deduplicate_covers {records : List WeatherRecord} {key : String × Nat}
    (h : key ∈ records.map dedupKey) :
    ∃ r ∈ deduplicate_records records, dedupKey r = key := by
  have hkey : key ∈ (records.foldl dedupStep []).map Prod.fst :=
    ((dedupInv_holds records).2.1 key).mpr h
  obtain ⟨kv, hkv, hfst⟩ := List.mem_map.mp hkey
  refine ⟨kv.2.1, ?_, ?_⟩
  · rw [deduplicate_records]
    exact List.mem_map.mpr ⟨kv, hkv, rfl⟩
  · rw [← ((dedupInv_holds records).2.2 kv hkv).1]
    exact hfst

/-- C7: deduplication keeps, for every (entity, hour-bucket) key present in
the input, exactly one record — a member of the input — namely the first
record in input order whose timestamp is at the smallest absolute distance
from the start of the hour (`keptFor` folds the key's records left to right
and replaces the candidate only on a strictly smaller distance, so the
earliest-seen record wins ties). -/
theorem deduplicate_spec (records : List WeatherRecord) :
    (∀ r ∈ deduplicate_records records, r ∈ records) ∧
    ((deduplicate_records records).map dedupKey).Nodup ∧
    (∀ key ∈ records.map dedupKey,
      ∃ r ∈ deduplicate_records records, dedupKey r = key) ∧
    (∀ r ∈ deduplicate_records records, keptFor (dedupKey r) records = some r) ∧
    (∀ r ∈ deduplicate_records records, ∀ s ∈ records,
      dedupKey s = dedupKey r →
        hourDistance r.timestamp ≤ hourDistance s.timestamp) :=
  ⟨fun _ h => deduplicate_mem h,
   deduplicate_keys_nodup records,
   fun _ h => deduplicate_covers h,
   fun _ h => deduplicate_kept h,
   fun _ h => keptFor_min (deduplicate_kept h)⟩

/-- Instantiation of `deduplicate_spec` on a 13:58 reading followed by a
13:03 reading of the same entity and hour: the 13:03 reading (distance 180 s
from the top of the hour, against 3480 s) is the one kept. -/
theorem deduplicate_spec_witness :
    deduplicate_records dedupWitnessRecords = [bronzeReading 2 46980 31] ∧
    (∃ r ∈ deduplicate_records dedupWitnessRecords,
      dedupKey r = ("Brisbane", 46800)) :=
  ⟨by decide,
   (deduplicate_spec dedupWitnessRecords).2.2.1 ("Brisbane", 46800) (by decide)⟩

theorem newSilverRecords_aux (committed : List WeatherRecordSilver)
    (recs : List WeatherRecord) (now : Nat)
    (pending : List WeatherRecordSilver) :
    recs.foldl
      (fun pending r =>
        if committed.any (fun s => s.bronze_record_id == r.id) then pending
        else pending ++ [makeSilver r now])
      pending =
    pending ++
      (recs.filter
        (fun r => !committed.any (fun s => s.bronze_record_id == r.id))).map
        (fun r => makeSilver r now) := by
  induction recs generalizing pending with
  | nil => simp
  | cons r rest ih =>
      rw [List.foldl_cons]
      by_cases h : (committed.any fun s => s.bronze_record_id == r.id) = true
      · rw [if_pos h, ih, List.filter_cons_of_neg (by simp [h])]
      · rw [if_neg h, ih, List.filter_cons_of_pos (by simp [Bool.not_eq_true] at h ⊢; exact h)]
        simp

theorem newSilverRecords_eq (committed : List WeatherRecordSilver)
    (recs : List WeatherRecord) (now : Nat) :
    newSilverRecords committed recs now =
      (recs.filter
        (fun r => !committed.any (fun s => s.bronze_record_id == r.id))).map
        (fun r => makeSilver r now) := by
  rw [newSilverRecords, newSilverRecords_aux]
  exact List.nil_append _

theorem makeSilver_refs (l : List WeatherRecord) (now : Nat) :
    (l.map (fun r => makeSilver r now)).map (fun s => s.bronze_record_id) =
      l.map (fun r => r.id) := by
  rw [List.map_map]
  rfl

theorem readWindow_ids_nodup {bronze : List WeatherRecord} (cutoff : Nat)
    (hb : (bronze.map (fun r => r.id)).Nodup) :
    ((readWindow bronze cutoff).map (fun r => r.id)).Nodup := by
  have h1 : ((bronze.filter (fun r => decide (cutoff < r.timestamp))).map
      (fun r => r.id)).Nodup :=
    List.Nodup.sublist (List.Sublist.map _ (List.filter_sublist _)) hb
  exact ((sortByTimestamp_perm _).map (fun r => r.id)).nodup_iff.mpr h1

theorem deduplicate_ids_nodup {records : List WeatherRecord}
    (h : (records.map (fun r => r.id)).Nodup) :
    ((deduplicate_records records).map (fun r => r.id)).Nodup := by
  have hnd : (deduplicate_records records).Nodup :=
    List.Nodup.of_map dedupKey (deduplicate_keys_nodup records)
  refine List.Nodup.map_on ?_ hnd
  intro x hx y hy hxy
  exact List.inj_on_of_nodup_map h (deduplicate_mem hx) (deduplicate_mem hy) hxy

theorem stage1_preserves_bronze (db : DB) (now : Nat) (failAt : Option Nat) :
    (transform_bronze_to_silver db now failAt).1.weather_records =
      db.weather_records := by
  by_cases h : readWindow db.weather_records (cutoffOf db.transformation_logs) = []
  · rw [transform_eq_of_empty db now failAt h]
  · cases failAt with
    | none => rw [transform_eq_success db now h]
    | some k => rw [transform_eq_failed db now k h]

theorem appended_refs_nodup (db : DB) (now : Nat)
    (hs : (db.weather_records_silver.map (fun s => s.bronze_record_id)).Nodup)
    (recs : List WeatherRecord)
    (hrecs : (recs.map (fun r => r.id)).Nodup) :
    ((db.weather_records_silver ++
        newSilverRecords db.weather_records_silver recs now).map
      (fun s => s.bronze_record_id)).Nodup := by
  rw [List.map_append, List.nodup_append, newSilverRecords_eq, makeSilver_refs]
  refine ⟨hs, ?_, ?_⟩
  · exact List.Nodup.sublist (List.Sublist.map _ (List.filter_sublist _)) hrecs
  · intro a ha hb
    obtain ⟨r, hr, hrid⟩ := List.mem_map.mp hb
    rw [List.mem_filter] at hr
    have hany : (db.weather_records_silver.any
        (fun s => s.bronze_record_id == r.id)) = false := by
      simpa using hr.2
    obtain ⟨s, hsmem, hsid⟩ := List.mem_map.mp ha
    have := List.any_eq_false.mp hany s hsmem
    rw [hsid, ← hrid] at this
    simp at this

theorem stage1_run_refs_nodup (db : DB) (now : Nat) (failAt : Option Nat)
    (hb : (db.weather_records.map (fun r => r.id)).Nodup)
    (hs : (db.weather_records_silver.map (fun s => s.bronze_record_id)).Nodup) :
    (((transform_bronze_to_silver db now failAt).1.weather_records_silver).map
      (fun s => s.bronze_record_id)).Nodup := by
  by_cases h : readWindow db.weather_records (cutoffOf db.transformation_logs) = []
  · rw [transform_eq_of_empty db now failAt h]; exact hs
  · have hwind := readWindow_ids_nodup (cutoffOf db.transformation_logs) hb
    have hdedup := deduplicate_ids_nodup hwind
    cases failAt with
    | none =>
        rw [transform_eq_success db now h]
        exact appended_refs_nodup db now hs _ hdedup
    | some k =>
        rw [transform_eq_failed db now k h]
        refine appended_refs_nodup db now hs _ ?_
        exact List.Nodup.sublist (List.Sublist.map _ (List.take_sublist k _)) hdedup

/-- C4: across any sequence of Stage-1 runs — successful or failing at any
point of the per-record loop — the clean layer never holds two CleanRecords
referencing the same RawRecord id: the per-source-id existence guard skips
survivors whose id is already referenced, survivors within one run have
pairwise distinct ids, and raw ids are primary keys. -/
theorem silver_refs_unique_across_runs (db : DB)
    (runs : List (Nat × Option Nat))
    (hb : (db.weather_records.map (fun r => r.id)).Nodup)
    (hs : (db.weather_records_silver.map (fun s => s.bronze_record_id)).Nodup) :
    (((runs.foldl (fun d p => (transform_bronze_to_silver d p.1 p.2).1)
        db).weather_records_silver).map
      (fun s => s.bronze_record_id)).Nodup := by
  induction runs generalizing db with
  | nil => exact hs
  | cons p rest ih =>
      rw [List.foldl_cons]
      refine ih _ ?_ ?_
      · rw [stage1_preserves_bronze db p.1 p.2]; exact hb
      · exact stage1_run_refs_nodup db p.1 p.2 hb hs

/-- Instantiation of `silver_refs_unique_across_runs`: a successful run
followed by a retried failing run on the witness database keeps the
back-references pairwise distinct. -/
theorem silver_refs_unique_across_runs_witness :
    ((([((7 : Nat), (none : Option Nat)), (8, some 1)].foldl
        (fun d p => (transform_bronze_to_silver d p.1 p.2).1)
        dbStage1Witness).weather_records_silver).map
      (fun s => s.bronze_record_id)).Nodup :=
  silver_refs_unique_across_runs dbStage1Witness [(7, none), (8, some 1)]
    (by decide) (by decide)

theorem stage1_preserves_other_tables (db : DB) (now : Nat) (failAt : Option Nat) :
    (transform_bronze_to_silver db now failAt).1.weather_daily_gold =
      db.weather_daily_gold ∧
    (transform_bronze_to_silver db now failAt).1.weather_analytics_layer =
      db.weather_analytics_layer ∧
    (transform_bronze_to_silver db now failAt).1.weather_reporting =
      db.weather_reporting ∧
    (transform_bronze_to_silver db now failAt).1.batch_logs = db.batch_logs := by
  by_cases h : readWindow db.weather_records (cutoffOf db.transformation_logs) = []
  · rw [transform_eq_of_empty db now failAt h]
    exact ⟨rfl, rfl, rfl, rfl⟩
  · cases failAt with
    | none =>
        rw [transform_eq_success db now h]
        exact ⟨rfl, rfl, rfl, rfl⟩
    | some k =>
        rw [transform_eq_failed db now k h]
        exact ⟨rfl, rfl, rfl, rfl⟩

theorem stage1_logs_filter (db : DB) (now : Nat) (failAt : Option Nat) :
    ((transform_bronze_to_silver db now failAt).1.transformation_logs).filter
      (fun l => !(l.transformation_name == "bronze_to_silver")) =
    db.transformation_logs.filter
      (fun l => !(l.transformation_name == "bronze_to_silver")) := by
  by_cases h : readWindow db.weather_records (cutoffOf db.transformation_logs) = []
  · rw [transform_eq_of_empty db now failAt h]
  · cases failAt with
    | none =>
        rw [transform_eq_success db now h]
        exact List.filter_cons_of_neg (by simp)
    | some k =>
        rw [transform_eq_failed db now k h]
        exact List.filter_cons_of_neg (by simp)

theorem clearSilver_cutoff (db : DB) :
    cutoffOf (clearSilver db).transformation_logs = beginningOfTime := by
  rw [clearSilver, cutoffOf, effectiveCheckpoint]
  have hnil : (db.transformation_logs.filter
        (fun l => !(l.transformation_name == "bronze_to_silver"))).filter
      (fun l =>
        l.transformation_name == "bronze_to_silver" && l.status == "success") = [] := by
    rw [List.filter_filter, List.filter_eq_nil_iff]
    intro l hl
    cases hb : (l.transformation_name == "bronze_to_silver") <;> simp [hb]
  rw [hnil]
  rfl

/-- C10: the full rebuild deletes exactly the silver rows and the
`"bronze_to_silver"` checkpoints — raw records, aggregates, the analytics
view, the reporting mart, batch logs and checkpoints of other
transformations are untouched — and then reruns Stage 1, which, the
checkpoint being gone, resolves its cutoff to the beginning-of-time
sentinel and so rebuilds the clean layer from the full raw history. -/
theorem rebuild_silver_spec (db : DB) (now : Nat) :
    (rebuild_silver db now).weather_records = db.weather_records ∧
    (rebuild_silver db now).weather_daily_gold = db.weather_daily_gold ∧
    (rebuild_silver db now).weather_analytics_layer =
      db.weather_analytics_layer ∧
    (rebuild_silver db now).weather_reporting = db.weather_reporting ∧
    (rebuild_silver db now).batch_logs = db.batch_logs ∧
    ((rebuild_silver db now).transformation_logs).filter
        (fun l => !(l.transformation_name == "bronze_to_silver")) =
      db.transformation_logs.filter
        (fun l => !(l.transformation_name == "bronze_to_silver")) ∧
    cutoffOf (clearSilver db).transformation_logs = beginningOfTime ∧
    rebuild_silver db now =
      (transform_bronze_to_silver (clearSilver db) now none).1 ∧
    (rebuild_silver db now).weather_records_silver =
      newSilverRecords []
        (deduplicate_records (readWindow db.weather_records beginningOfTime))
        now := by
  refine ⟨?_, ?_, ?_, ?_, ?_, ?_, clearSilver_cutoff db, rfl, ?_⟩
  · exact stage1_preserves_bronze (clearSilver db) now none
  · exact (stage1_preserves_other_tables (clearSilver db) now none).1
  · exact (stage1_preserves_other_tables (clearSilver db) now none).2.1
  · exact (stage1_preserves_other_tables (clearSilver db) now none).2.2.1
  · exact (stage1_preserves_other_tables (clearSilver db) now none).2.2.2
  · rw [show (rebuild_silver db now).transformation_logs.filter
          (fun l => !(l.transformation_name == "bronze_to_silver")) =
        (clearSilver db).transformation_logs.filter
          (fun l => !(l.transformation_name == "bronze_to_silver")) from
      stage1_logs_filter (clearSilver db) now none]
    rw [clearSilver, List.filter_filter]
    simp
  · rw [rebuild_silver]
    by_cases h : readWindow (clearSilver db).weather_records
        (cutoffOf (clearSilver db).transformation_logs) = []
    · rw [transform_eq_of_empty (clearSilver db) now none h]
      have : readWindow db.weather_records beginningOfTime = [] := by
        rw [← clearSilver_cutoff db]
        exact h
      rw [clearSilver, this]
      rfl
    · rw [transform_eq_success (clearSilver db) now h]
      show [] ++ _ = _
      rw [List.nil_append, clearSilver_cutoff db]
      rfl

theorem groupPred_iff (key : String × Nat) (r : WeatherRecordSilver) :
    ((r.city == key.1 && decide (dateOf r.timestamp = key.2)) = true) ↔
      (r.city, dateOf r.timestamp) = key := by
  simp [Prod.ext_iff]

theorem groupRecords_append_of_ne (key : String × Nat)
    (p : List WeatherRecordSilver) (r : WeatherRecordSilver)
    (h : ¬(r.city, dateOf r.timestamp) = key) :
    groupRecords key (p ++ [r]) = groupRecords key p := by
  have hpred : ¬(r.city == key.1 && decide (dateOf r.timestamp = key.2)) = true :=
    fun hc => h ((groupPred_iff key r).mp hc)
  rw [groupRecords, groupRecords, List.filter_append]
  simp only [List.filter_cons, List.filter_nil, if_neg hpred]
  simp

theorem groupRecords_append_self (key : String × Nat)
    (p : List WeatherRecordSilver) (r : WeatherRecordSilver)
    (h : (r.city, dateOf r.timestamp) = key) :
    groupRecords key (p ++ [r]) = groupRecords key p ++ [r] := by
  rw [groupRecords, groupRecords, List.filter_append]
  simp only [List.filter_cons, List.filter_nil,
    if_pos ((groupPred_iff key r).mpr h)]

theorem groupRecords_nil_of_not_mem {key : String × Nat}
    {p : List WeatherRecordSilver}
    (h : key ∉ p.map (fun r => (r.city, dateOf r.timestamp))) :
    groupRecords key p = [] := by
  rw [groupRecords, List.filter_eq_nil_iff]
  intro r hr hc
  exact h (List.mem_map.mpr ⟨r, hr, (groupPred_iff key r).mp hc⟩)

theorem groupData_addToGroup {key : String × Nat} {g : GoldGroup}
    {q : List WeatherRecordSilver} {r : WeatherRecordSilver}
    (hg : GroupData key g q) :
    GroupData key (addToGroup g r) (q ++ [r]) := by
  obtain ⟨h1, h2, h3, h4, h5, h6, h7, h8⟩ := hg
  refine ⟨h1, h2, ?_, ?_, ?_, ?_, ?_, ?_⟩
  · simp [addToGroup, h3]
  · simp [addToGroup, h4]
  · simp [addToGroup, h5]
  · simp [addToGroup, h6]
  · rw [addToGroup]
    show g.total_readings + 1 = (q ++ [r]).length
    rw [List.length_append, h7]
    rfl
  · rw [addToGroup]
    show (if r.data_quality_flag == "valid" then g.valid_readings + 1
      else g.valid_readings) = _
    rw [List.filter_append, List.length_append, h8]
    by_cases hv : (r.data_quality_flag == "valid") = true
    · simp [hv]
    · simp [hv]

theorem groupData_empty (r : WeatherRecordSilver) :
    GroupData (r.city, dateOf r.timestamp)
      (emptyGroup r (dateOf r.timestamp)) [] :=
  ⟨rfl, rfl, rfl, rfl, rfl, rfl, rfl, rfl⟩

theorem goldInv_holds (p : List WeatherRecordSilver) :
    GoldInv p (p.foldl goldStep []) := by
  induction p using List.reverseRecOn with
  | nil =>
      refine ⟨List.nodup_nil, ?_, ?_⟩
      · intro key; simp
      · intro kv hkv; simp at hkv
  | append_singleton p rec ih =>
      obtain ⟨hnd, hkeys, hval⟩ := ih
      have hstep : (p ++ [rec]).foldl goldStep [] =
          goldStep (p.foldl goldStep []) rec := by
        rw [List.foldl_append]; rfl
      set acc := p.foldl goldStep [] with hacc
      set rkey := (rec.city, dateOf rec.timestamp) with hrkey
      rw [hstep]
      cases hl : alookup rkey acc with
      | none =>
          have hne : rkey ∉ acc.map Prod.fst := (alookup_eq_none_iff _ _).mp hl
          have hnp : rkey ∉ p.map (fun r => (r.city, dateOf r.timestamp)) :=
            fun hc => hne ((hkeys _).mpr hc)
          have hacc2 : goldStep acc rec =
              acc ++ [(rkey,
                addToGroup (emptyGroup rec (dateOf rec.timestamp)) rec)] := by
            simp only [goldStep, ← hrkey, hl]
          rw [hacc2]
          refine ⟨?_, ?_, ?_⟩
          · rw [List.map_append, List.nodup_append]
            refine ⟨hnd, List.nodup_singleton _, ?_⟩
            intro a ha hb
            simp at hb
            subst hb
            exact hne ha
          · intro key
            rw [List.map_append, List.map_append, List.mem_append, List.mem_append]
            constructor
            · rintro (h | h)
              · exact Or.inl ((hkeys key).mp h)
              · simp at h; subst h; simp [hrkey]
            · rintro (h | h)
              · exact Or.inl ((hkeys key).mpr h)
              · simp at h; subst h; simp
          · intro kv hkv
            rcases List.mem_append.mp hkv with h | h
            · have hkvne : ¬(rec.city, dateOf rec.timestamp) = kv.1 := by
                intro hc
                exact hne (hrkey ▸ hc ▸ List.mem_map.mpr ⟨kv, h, rfl⟩)
              rw [groupRecords_append_of_ne _ _ _ hkvne]
              exact hval kv h
            · simp at h
              subst h
              show GroupData rkey _ (groupRecords rkey (p ++ [rec]))
              rw [show groupRecords rkey (p ++ [rec]) =
                  groupRecords rkey p ++ [rec] from
                groupRecords_append_self _ _ _ hrkey.symm]
              rw [groupRecords_nil_of_not_mem hnp]
              exact groupData_addToGroup (hrkey ▸ groupData_empty rec)
      | some g =>
          have hmem0 : (rkey, g) ∈ acc := alookup_mem hl
          have hg0 := hval _ hmem0
          have hkeymem : rkey ∈ acc.map Prod.fst :=
            List.mem_map.mpr ⟨_, hmem0, rfl⟩
          have hacc2 : goldStep acc rec = aupdate rkey (addToGroup g rec) acc := by
            simp only [goldStep, ← hrkey, hl]
          rw [hacc2]
          refine ⟨by rw [aupdate_map_fst]; exact hnd, ?_, ?_⟩
          · intro key
            rw [aupdate_map_fst, List.map_append, List.mem_append]
            constructor
            · intro h; exact Or.inl ((hkeys key).mp h)
            · rintro (h | h)
              · exact (hkeys key).mpr h
              · simp at h; subst h; exact hkeymem
          · intro kv hkv
            rcases mem_aupdate_nodup hnd hkv with ⟨h1, _⟩ | ⟨h1, h2⟩
            · subst h1
              show GroupData rkey _ (groupRecords rkey (p ++ [rec]))
              rw [groupRecords_append_self _ _ _ hrkey.symm]
              exact groupData_addToGroup hg0
            · have hkvne : ¬(rec.city, dateOf rec.timestamp) = kv.1 :=
                fun hc => h2 (hrkey ▸ hc.symm)
              rw [groupRecords_append_of_ne _ _ _ hkvne]
              exact hval kv h1

theorem aggFields_setGoldFields (g : WeatherDailyGold) (data : GoldGroup) :
    AggFields (setGoldFields g data) data :=
  ⟨rfl, rfl, rfl, rfl, rfl, rfl, rfl, rfl, rfl, rfl⟩

theorem setGoldFields_idem (g : WeatherDailyGold) (data : GoldGroup) :
    setGoldFields (setGoldFields g data) data = setGoldFields g data :=
  rfl

theorem setGoldFields_city (g : WeatherDailyGold) (data : GoldGroup) :
    (setGoldFields g data).city = g.city := rfl

theorem setGoldFields_date (g : WeatherDailyGold) (data : GoldGroup) :
    (setGoldFields g data).date = g.date := rfl

theorem firstMatch_mem {key : String × Nat} {gold : List WeatherDailyGold}
    {g : WeatherDailyGold} (h : firstMatch key gold = some g) :
    g ∈ gold ∧ g.city = key.1 ∧ g.date = key.2 := by
  induction gold with
  | nil => simp [firstMatch] at h
  | cons x rest ih =>
      by_cases hx : x.city = key.1 ∧ x.date = key.2
      · rw [firstMatch, if_pos hx] at h
        injection h with h
        subst h
        exact ⟨List.mem_cons_self _ _, hx⟩
      · rw [firstMatch, if_neg hx] at h
        obtain ⟨h1, h2⟩ := ih h
        exact ⟨List.mem_cons_of_mem _ h1, h2⟩

theorem firstMatch_isSome_iff (key : String × Nat)
    (gold : List WeatherDailyGold) :
    (firstMatch key gold).isSome = true ↔
      (gold.any fun g => g.city == key.1 && g.date == key.2) = true := by
  induction gold with
  | nil => simp [firstMatch]
  | cons x rest ih =>
      by_cases hx : x.city = key.1 ∧ x.date = key.2
      · rw [firstMatch, if_pos hx]
        simp [hx.1, hx.2]
      · rw [firstMatch, if_neg hx]
        rw [List.any_cons]
        have hb : (x.city == key.1 && x.date == key.2) = false := by
          rcases Bool.eq_false_or_eq_true (x.city == key.1 && x.date == key.2)
            with h | h
          · exact absurd (by simpa using h) hx
          · exact h
        rw [hb]
        simpa using ih

theorem mem_updateFirstGold_self {key : String × Nat}
    {gold : List WeatherDailyGold} {g : WeatherDailyGold}
    (h : firstMatch key gold = some g) (data : GoldGroup) :
    setGoldFields g data ∈ updateFirstGold key data gold := by
  induction gold with
  | nil => simp [firstMatch] at h
  | cons x rest ih =>
      by_cases hx : x.city = key.1 ∧ x.date = key.2
      · rw [firstMatch, if_pos hx] at h
        injection h with h
        subst h
        rw [updateFirstGold, if_pos hx]
        exact List.mem_cons_self _ _
      · rw [firstMatch, if_neg hx] at h
        rw [updateFirstGold, if_neg hx]
        exact List.mem_cons_of_mem _ (ih h)

theorem updateFirstGold_eq_self {key : String × Nat}
    {gold : List WeatherDailyGold} {g : WeatherDailyGold} {data : GoldGroup}
    (h : firstMatch key gold = some g) (hset : setGoldFields g data = g) :
    updateFirstGold key data gold = gold := by
  induction gold with
  | nil => rfl
  | cons x rest ih =>
      by_cases hx : x.city = key.1 ∧ x.date = key.2
      · rw [firstMatch, if_pos hx] at h
        injection h with h
        subst h
        rw [updateFirstGold, if_pos hx, hset]
      · rw [firstMatch, if_neg hx] at h
        rw [updateFirstGold, if_neg hx, ih h]

theorem firstMatch_updateFirstGold_self {key : String × Nat}
    {gold : List WeatherDailyGold} {g : WeatherDailyGold}
    (h : firstMatch key gold = some g) (data : GoldGroup) :
    firstMatch key (updateFirstGold key data gold) =
      some (setGoldFields g data) := by
  induction gold with
  | nil => simp [firstMatch] at h
  | cons x rest ih =>
      by_cases hx : x.city = key.1 ∧ x.date = key.2
      · rw [firstMatch, if_pos hx] at h
        injection h with h
        subst h
        rw [updateFirstGold, if_pos hx, firstMatch,
          if_pos (show (setGoldFields x data).city = key.1 ∧
            (setGoldFields x data).date = key.2 from ⟨hx.1, hx.2⟩)]
      · rw [firstMatch, if_neg hx] at h
        rw [updateFirstGold, if_neg hx, firstMatch, if_neg hx]
        exact ih h

theorem firstMatch_updateFirstGold_ne {key key' : String × Nat}
    (hne : ¬key' = key) (data : GoldGroup) (gold : List WeatherDailyGold) :
    firstMatch key (updateFirstGold key' data gold) = firstMatch key gold := by
  induction gold with
  | nil => rfl
  | cons x rest ih =>
      by_cases hx : x.city = key'.1 ∧ x.date = key'.2
      · have hnk : ¬(x.city = key.1 ∧ x.date = key.2) := by
          intro hk
          exact hne (Prod.ext_iff.mpr ⟨hx.1 ▸ hk.1.symm ▸ rfl, by
            rw [← hx.2, hk.2]⟩)
        rw [updateFirstGold, if_pos hx, firstMatch,
          if_neg (show ¬((setGoldFields x data).city = key.1 ∧
            (setGoldFields x data).date = key.2) from hnk),
          firstMatch, if_neg hnk]
      · rw [updateFirstGold, if_neg hx, firstMatch, firstMatch]
        by_cases hk : x.city = key.1 ∧ x.date = key.2
        · rw [if_pos hk, if_pos hk]
        · rw [if_neg hk, if_neg hk, ih]

theorem updateFirstGold_map_goldKey (key : String × Nat) (data : GoldGroup)
    (gold : List WeatherDailyGold) :
    (updateFirstGold key data gold).map goldKey = gold.map goldKey := by
  induction gold with
  | nil => rfl
  | cons x rest ih =>
      by_cases hx : x.city = key.1 ∧ x.date = key.2
      · rw [updateFirstGold, if_pos hx]
        rfl
      · rw [updateFirstGold, if_neg hx, List.map_cons, List.map_cons, ih]

theorem mem_updateFirstGold_of_ne {key : String × Nat} {data : GoldGroup}
    {gold : List WeatherDailyGold} {g : WeatherDailyGold} (hg : g ∈ gold)
    (hne : ¬(g.city = key.1 ∧ g.date = key.2)) :
    g ∈ updateFirstGold key data gold := by
  induction gold with
  | nil => cases hg
  | cons x rest ih =>
      by_cases hx : x.city = key.1 ∧ x.date = key.2
      · rw [updateFirstGold, if_pos hx]
        rcases List.mem_cons.mp hg with h | h
        · exact absurd (h ▸ hx) hne
        · exact List.mem_cons_of_mem _ h
      · rw [updateFirstGold, if_neg hx]
        rcases List.mem_cons.mp hg with h | h
        · rw [h]; exact List.mem_cons_self _ _
        · exact List.mem_cons_of_mem _ (ih h)

theorem firstMatch_append_some {key : String × Nat}
    {gold : List WeatherDailyGold} {g : WeatherDailyGold}
    (h : firstMatch key gold = some g) (x : WeatherDailyGold) :
    firstMatch key (gold ++ [x]) = some g := by
  induction gold with
  | nil => simp [firstMatch] at h
  | cons y rest ih =>
      by_cases hy : y.city = key.1 ∧ y.date = key.2
      · rw [firstMatch, if_pos hy] at h
        rw [List.cons_append, firstMatch, if_pos hy]
        exact h
      · rw [firstMatch, if_neg hy] at h
        rw [List.cons_append, firstMatch, if_neg hy]
        exact ih h

theorem firstMatch_append_none {key : String × Nat}
    {gold : List WeatherDailyGold} (h : firstMatch key gold = none)
    (x : WeatherDailyGold) :
    firstMatch key (gold ++ [x]) = firstMatch key [x] := by
  induction gold with
  | nil => rfl
  | cons y rest ih =>
      by_cases hy : y.city = key.1 ∧ y.date = key.2
      · rw [firstMatch, if_pos hy] at h
        cases h
      · rw [firstMatch, if_neg hy] at h
        rw [List.cons_append, firstMatch, if_neg hy]
        exact ih h

theorem exists_in_upsertGold (gold : List WeatherDailyGold)
    (key : String × Nat) (data : GoldGroup) (now : Nat)
    (hc : data.city = key.1) (hd : data.date = key.2) :
    ∃ g ∈ upsertGold gold key data now,
      g.city = key.1 ∧ g.date = key.2 ∧ AggFields g data := by
  rw [upsertGold]
  by_cases hany : (gold.any fun g => g.city == key.1 && g.date == key.2) = true
  · rw [if_pos hany]
    obtain ⟨m, hm⟩ := Option.isSome_iff_exists.mp
      ((firstMatch_isSome_iff key gold).mpr hany)
    obtain ⟨_, hmc, hmd⟩ := firstMatch_mem hm
    exact ⟨setGoldFields m data, mem_updateFirstGold_self hm data,
      by rw [setGoldFields_city, hmc], by rw [setGoldFields_date, hmd],
      aggFields_setGoldFields m data⟩
  · rw [if_neg hany]
    refine ⟨newGoldRecord data now, List.mem_append_right _ (List.mem_singleton.mpr rfl),
      ?_, ?_, aggFields_setGoldFields _ data⟩
    · show data.city = key.1
      exact hc
    · show data.date = key.2
      exact hd

theorem mem_upsertGold_of_ne {gold : List WeatherDailyGold}
    {key : String × Nat} {data : GoldGroup} {now : Nat}
    {g : WeatherDailyGold} (hg : g ∈ gold)
    (hne : ¬(g.city = key.1 ∧ g.date = key.2)) :
    g ∈ upsertGold gold key data now := by
  rw [upsertGold]
  by_cases hany : (gold.any fun g => g.city == key.1 && g.date == key.2) = true
  · rw [if_pos hany]
    exact mem_updateFirstGold_of_ne hg hne
  · rw [if_neg hany]
    exact List.mem_append_left _ hg

theorem firstMatch_upsertGold_self (gold : List WeatherDailyGold)
    (key : String × Nat) (data : GoldGroup) (now : Nat)
    (hc : data.city = key.1) (hd : data.date = key.2) :
    ∃ g, firstMatch key (upsertGold gold key data now) = some g ∧
      setGoldFields g data = g := by
  rw [upsertGold]
  by_cases hany : (gold.any fun g => g.city == key.1 && g.date == key.2) = true
  · rw [if_pos hany]
    obtain ⟨m, hm⟩ := Option.isSome_iff_exists.mp
      ((firstMatch_isSome_iff key gold).mpr hany)
    exact ⟨setGoldFields m data, firstMatch_updateFirstGold_self hm data,
      setGoldFields_idem m data⟩
  · rw [if_neg hany]
    have hnone : firstMatch key gold = none := by
      cases hfm : firstMatch key gold with
      | none => rfl
      | some m =>
          exact absurd ((firstMatch_isSome_iff key gold).mp (by rw [hfm]; rfl))
            hany
    rw [firstMatch_append_none hnone]
    refine ⟨newGoldRecord data now, ?_, setGoldFields_idem _ data⟩
    rw [firstMatch,
      if_pos (show (newGoldRecord data now).city = key.1 ∧
        (newGoldRecord data now).date = key.2 from ⟨hc, hd⟩)]

theorem firstMatch_upsertGold_ne {key key' : String × Nat}
    (hne : ¬key' = key) (gold : List WeatherDailyGold) {data : GoldGroup}
    (now : Nat) (hc : data.city = key'.1) (hd : data.date = key'.2) :
    firstMatch key (upsertGold gold key' data now) = firstMatch key gold := by
  rw [upsertGold]
  by_cases hany : (gold.any fun g => g.city == key'.1 && g.date == key'.2) = true
  · rw [if_pos hany]
    exact firstMatch_updateFirstGold_ne hne data gold
  · rw [if_neg hany]
    cases hfm : firstMatch key gold with
    | some m => exact firstMatch_append_some hfm _
    | none =>
        rw [firstMatch_append_none hfm, firstMatch]
        rw [if_neg (show ¬((newGoldRecord data now).city = key.1 ∧
            (newGoldRecord data now).date = key.2) from ?_)]
        · rfl
        · intro hk
          exact hne (Prod.ext_iff.mpr ⟨by rw [← hc]; exact hk.1,
            by rw [← hd]; exact hk.2⟩)

theorem upsertGold_settled {gold : List WeatherDailyGold}
    {key : String × Nat} {data : GoldGroup} (now : Nat)
    {g : WeatherDailyGold} (hm : firstMatch key gold = some g)
    (hset : setGoldFields g data = g) :
    upsertGold gold key data now = gold := by
  rw [upsertGold,
    if_pos ((firstMatch_isSome_iff key gold).mp (by rw [hm]; rfl))]
  exact updateFirstGold_eq_self hm hset

theorem upsertGold_keys_nodup {gold : List WeatherDailyGold}
    (hnd : (gold.map goldKey).Nodup) {key : String × Nat} {data : GoldGroup}
    (now : Nat) (hc : data.city = key.1) (hd : data.date = key.2) :
    ((upsertGold gold key data now).map goldKey).Nodup := by
  rw [upsertGold]
  by_cases hany : (gold.any fun g => g.city == key.1 && g.date == key.2) = true
  · rw [if_pos hany, updateFirstGold_map_goldKey]
    exact hnd
  · rw [if_neg hany, List.map_append, List.nodup_append]
    refine ⟨hnd, List.nodup_singleton _, ?_⟩
    intro a ha hb
    simp only [List.map_cons, List.map_nil, List.mem_singleton] at hb
    subst hb
    obtain ⟨g, hg, hgk⟩ := List.mem_map.mp ha
    have : (g.city == key.1 && g.date == key.2) = true := by
      have h1 : g.city = key.1 := by
        have := congrArg Prod.fst hgk
        simpa [goldKey, newGoldRecord, hc] using this
      have h2 : g.date = key.2 := by
        have := congrArg Prod.snd hgk
        simpa [goldKey, newGoldRecord, hd] using this
      simp [h1, h2]
    have hfalse : (gold.any fun g => g.city == key.1 && g.date == key.2) = true :=
      List.any_eq_true.mpr ⟨g, hg, this⟩
    exact hany hfalse

theorem mem_foldl_upsert_of_ne {g : WeatherDailyGold} (now : Nat)
    (acc : List ((String × Nat) × GoldGroup)) :
    ∀ gold : List WeatherDailyGold, g ∈ gold →
      (∀ kv ∈ acc, ¬(g.city = kv.1.1 ∧ g.date = kv.1.2)) →
      g ∈ acc.foldl (fun gd kv => upsertGold gd kv.1 kv.2 now) gold := by
  induction acc with
  | nil => intro gold hg _; exact hg
  | cons p rest ih =>
      intro gold hg hne
      rw [List.foldl_cons]
      exact ih _ (mem_upsertGold_of_ne hg (hne p (List.mem_cons_self _ _)))
        (fun kv hkv => hne kv (List.mem_cons_of_mem _ hkv))

theorem foldl_upsert_exists (now : Nat) (acc : List ((String × Nat) × GoldGroup)) :
    ∀ gold : List WeatherDailyGold, (acc.map Prod.fst).Nodup →
      (∀ kv ∈ acc, kv.2.city = kv.1.1 ∧ kv.2.date = kv.1.2) →
      ∀ kv ∈ acc,
        ∃ g ∈ acc.foldl (fun gd kv => upsertGold gd kv.1 kv.2 now) gold,
          g.city = kv.1.1 ∧ g.date = kv.1.2 ∧ AggFields g kv.2 := by
  induction acc with
  | nil => intro gold _ _ kv hkv; cases hkv
  | cons p rest ih =>
      intro gold hnd hcd kv hkv
      rw [List.map_cons, List.nodup_cons] at hnd
      rw [List.foldl_cons]
      rcases List.mem_cons.mp hkv with h | h
      · subst h
        obtain ⟨hc, hd⟩ := hcd kv (List.mem_cons_self _ _)
        obtain ⟨g, hg, hg1, hg2, hg3⟩ :=
          exists_in_upsertGold gold kv.1 kv.2 now hc hd
        refine ⟨g, ?_, hg1, hg2, hg3⟩
        refine mem_foldl_upsert_of_ne now rest _ hg ?_
        intro kv' hkv' hk
        apply hnd.1
        have : kv.1 = kv'.1 := by
          rw [Prod.ext_iff]
          exact ⟨by rw [← hg1]; exact hk.1, by rw [← hg2]; exact hk.2⟩
        rw [this]
        exact List.mem_map.mpr ⟨kv', hkv', rfl⟩
      · exact ih _ hnd.2 (fun kv' hkv' => hcd kv' (List.mem_cons_of_mem _ hkv'))
          kv h

theorem firstMatch_foldl_upsert_of_not_mem {key : String × Nat} (now : Nat)
    (acc : List ((String × Nat) × GoldGroup)) :
    ∀ gold : List WeatherDailyGold, key ∉ acc.map Prod.fst →
      (∀ kv ∈ acc, kv.2.city = kv.1.1 ∧ kv.2.date = kv.1.2) →
      firstMatch key (acc.foldl (fun gd kv => upsertGold gd kv.1 kv.2 now) gold) =
        firstMatch key gold := by
  induction acc with
  | nil => intro gold _ _; rfl
  | cons p rest ih =>
      intro gold hmem hcd
      rw [List.foldl_cons]
      have hne : ¬p.1 = key := fun hc =>
        hmem (by rw [← hc]; exact List.mem_map.mpr ⟨p, List.mem_cons_self _ _, rfl⟩)
      obtain ⟨hc, hd⟩ := hcd p (List.mem_cons_self _ _)
      rw [ih _ (fun hc2 => hmem (List.mem_cons_of_mem _
          (by simpa using hc2) : key ∈ _))
        (fun kv hkv => hcd kv (List.mem_cons_of_mem _ hkv))]
      exact firstMatch_upsertGold_ne hne gold now hc hd

theorem settled_after_foldl (now : Nat) (acc : List ((String × Nat) × GoldGroup)) :
    ∀ gold : List WeatherDailyGold, (acc.map Prod.fst).Nodup →
      (∀ kv ∈ acc, kv.2.city = kv.1.1 ∧ kv.2.date = kv.1.2) →
      ∀ kv ∈ acc,
        ∃ g, firstMatch kv.1
            (acc.foldl (fun gd kv => upsertGold gd kv.1 kv.2 now) gold) =
          some g ∧ setGoldFields g kv.2 = g := by
  induction acc with
  | nil => intro gold _ _ kv hkv; cases hkv
  | cons p rest ih =>
      intro gold hnd hcd kv hkv
      rw [List.map_cons, List.nodup_cons] at hnd
      rw [List.foldl_cons]
      rcases List.mem_cons.mp hkv with h | h
      · subst h
        obtain ⟨hc, hd⟩ := hcd kv (List.mem_cons_self _ _)
        obtain ⟨g, hg1, hg2⟩ :=
          firstMatch_upsertGold_self gold kv.1 kv.2 now hc hd
        refine ⟨g, ?_, hg2⟩
        rw [firstMatch_foldl_upsert_of_not_mem now rest _ hnd.1
          (fun kv' hkv' => hcd kv' (List.mem_cons_of_mem _ hkv'))]
        exact hg1
      · exact ih _ hnd.2 (fun kv' hkv' => hcd kv' (List.mem_cons_of_mem _ hkv'))
          kv h

theorem foldl_upsert_id (now' : Nat) (acc : List ((String × Nat) × GoldGroup)) :
    ∀ G : List WeatherDailyGold,
      (∀ kv ∈ acc, ∃ g, firstMatch kv.1 G = some g ∧ setGoldFields g kv.2 = g) →
      acc.foldl (fun gd kv => upsertGold gd kv.1 kv.2 now') G = G := by
  induction acc with
  | nil => intro G _; rfl
  | cons p rest ih =>
      intro G hset
      rw [List.foldl_cons]
      obtain ⟨g, hg1, hg2⟩ := hset p (List.mem_cons_self _ _)
      rw [upsertGold_settled now' hg1 hg2]
      exact ih G (fun kv hkv => hset kv (List.mem_cons_of_mem _ hkv))

theorem foldl_upsert_keys_nodup (now : Nat)
    (acc : List ((String × Nat) × GoldGroup)) :
    ∀ gold : List WeatherDailyGold, (gold.map goldKey).Nodup →
      (∀ kv ∈ acc, kv.2.city = kv.1.1 ∧ kv.2.date = kv.1.2) →
      (((acc.foldl (fun gd kv => upsertGold gd kv.1 kv.2 now) gold)).map
        goldKey).Nodup := by
  induction acc with
  | nil => intro gold hnd _; exact hnd
  | cons p rest ih =>
      intro gold hnd hcd
      rw [List.foldl_cons]
      obtain ⟨hc, hd⟩ := hcd p (List.mem_cons_self _ _)
      exact ih _ (upsertGold_keys_nodup hnd now hc hd)
        (fun kv hkv => hcd kv (List.mem_cons_of_mem _ hkv))

theorem stage2_eq_of_empty (db : DB) (today days_back now : Nat)
    (h : silverWindow db.weather_records_silver today days_back = []) :
    transform_silver_to_gold db today days_back now = db := by
  simp [transform_silver_to_gold, h]

theorem stage2_eq (db : DB) (today days_back now : Nat)
    (h : ¬silverWindow db.weather_records_silver today days_back = []) :
    transform_silver_to_gold db today days_back now =
      { db with
          weather_daily_gold :=
            ((silverWindow db.weather_records_silver today days_back).foldl
              goldStep []).foldl
              (fun gold kv => upsertGold gold kv.1 kv.2 now)
              db.weather_daily_gold } := by
  simp [transform_silver_to_gold, h]

/-- C8: for every (entity, date) key present in the lookback window, Stage 2
writes a gold row whose fields are exactly the claimed aggregates of that
key's group — the rows of the window with that city and calendar date, in
encounter order: averages of the continuous fields rounded to two decimals,
integer average of humidity by floor division, max/min of each numeric
field, the most frequent description with ties to the first encountered,
the total reading count and the count of readings flagged `valid`. -/
theorem stage2_aggregation (db : DB) (today days_back now : Nat)
    (city : String) (d : Nat)
    (h : (city, d) ∈ (silverWindow db.weather_records_silver today days_back).map
      (fun r => (r.city, dateOf r.timestamp))) :
    ∃ g ∈ (transform_silver_to_gold db today days_back now).weather_daily_gold,
      g.city = city ∧ g.date = d ∧
      g.avg_temperature = round2 (qsum ((groupRecords (city, d)
          (silverWindow db.weather_records_silver today days_back)).map
          (fun r => r.temperature)) /
        (((groupRecords (city, d)
          (silverWindow db.weather_records_silver today days_back)).map
          (fun r => r.temperature)).length : ℚ)) ∧
      g.max_temperature = round2 (qmax ((groupRecords (city, d)
        (silverWindow db.weather_records_silver today days_back)).map
        (fun r => r.temperature))) ∧
      g.min_temperature = round2 (qmin ((groupRecords (city, d)
        (silverWindow db.weather_records_silver today days_back)).map
        (fun r => r.temperature))) ∧
      g.avg_humidity = Int.fdiv (zsum ((groupRecords (city, d)
          (silverWindow db.weather_records_silver today days_back)).map
          (fun r => r.humidity)))
        (((groupRecords (city, d)
          (silverWindow db.weather_records_silver today days_back)).map
          (fun r => r.humidity)).length : Int) ∧
      g.max_humidity = zmax ((groupRecords (city, d)
        (silverWindow db.weather_records_silver today days_back)).map
        (fun r => r.humidity)) ∧
      g.min_humidity = zmin ((groupRecords (city, d)
        (silverWindow db.weather_records_silver today days_back)).map
        (fun r => r.humidity)) ∧
      g.avg_wind_speed = round2 (qsum ((groupRecords (city, d)
          (silverWindow db.weather_records_silver today days_back)).map
          (fun r => r.wind_speed)) /
        (((groupRecords (city, d)
          (silverWindow db.weather_records_silver today days_back)).map
          (fun r => r.wind_speed)).length : ℚ)) ∧
      g.most_common_description = (mostCommon ((groupRecords (city, d)
        (silverWindow db.weather_records_silver today days_back)).map
        (fun r => r.description))).getD "" ∧
      g.total_readings = (groupRecords (city, d)
        (silverWindow db.weather_records_silver today days_back)).length ∧
      g.valid_readings = ((groupRecords (city, d)
        (silverWindow db.weather_records_silver today days_back)).filter
        (fun r => r.data_quality_flag == "valid")).length := by
  have hw : ¬silverWindow db.weather_records_silver today days_back = [] := by
    intro hnil
    rw [hnil] at h
    simp at h
  rw [stage2_eq db today days_back now hw]
  have inv := goldInv_holds (silverWindow db.weather_records_silver today days_back)
  have hkey : (city, d) ∈
      ((silverWindow db.weather_records_silver today days_back).foldl
        goldStep []).map Prod.fst :=
    (inv.2.1 _).mpr h
  obtain ⟨kv, hkv, hfst⟩ := List.mem_map.mp hkey
  have hgd := inv.2.2 kv hkv
  have hcd : ∀ kv' ∈ (silverWindow db.weather_records_silver today days_back).foldl
      goldStep [], kv'.2.city = kv'.1.1 ∧ kv'.2.date = kv'.1.2 :=
    fun kv' hkv' => ⟨(inv.2.2 kv' hkv').1, (inv.2.2 kv' hkv').2.1⟩
  obtain ⟨g, hgmem, hg1, hg2, hagg⟩ :=
    foldl_upsert_exists now _ db.weather_daily_gold inv.1 hcd kv hkv
  obtain ⟨ha1, ha2, ha3, ha4, ha5, ha6, ha7, ha8, ha9, ha10⟩ := hagg
  obtain ⟨_, _, hd3, hd4, hd5, hd6, hd7, hd8⟩ := hgd
  refine ⟨g, hgmem, by rw [hg1, hfst], by rw [hg2, hfst],
    ?_, ?_, ?_, ?_, ?_, ?_, ?_, ?_, ?_, ?_⟩
  · rw [ha1, hd3, hfst]
  · rw [ha2, hd3, hfst]
  · rw [ha3, hd3, hfst]
  · rw [ha4, hd4, hfst]
  · rw [ha5, hd4, hfst]
  · rw [ha6, hd4, hfst]
  · rw [ha7, hd5, hfst]
  · rw [ha8, hd6, hfst]
  · rw [ha9, hd7, hfst]
  · rw [ha10, hd8, hfst]

/-- Instantiation of `stage2_aggregation`: three valid readings for entity
`"X"` on one day with temperatures 10, 20, 30 produce a gold row with
avg 20.00, max 30.00, min 10.00 and three total readings. -/
theorem stage2_aggregation_witness :
    ∃ g ∈ (transform_silver_to_gold dbStage2Witness 1 7 99).weather_daily_gold,
      g.city = "X" ∧ g.date = 1 ∧ g.avg_temperature = 20 ∧
      g.max_temperature = 30 ∧ g.min_temperature = 10 ∧
      g.total_readings = 3 ∧ g.valid_readings = 3 := by
  obtain ⟨g, hgmem, h1, h2, h3, h4, h5, _, _, _, _, _, h11, h12⟩ :=
    stage2_aggregation dbStage2Witness 1 7 99 "X" 1 (by decide)
  have hgrp : groupRecords ("X", 1)
      (silverWindow dbStage2Witness.weather_records_silver 1 7) =
      [silverReading 90000 10, silverReading 93600 20,
        silverReading 97200 30] := by decide
  rw [hgrp] at h3 h4 h5 h11 h12
  refine ⟨g, hgmem, h1, h2, ?_, ?_, ?_, ?_, ?_⟩
  · rw [h3]; norm_num [qsum, silverReading, round2, roundHalfEven, qfloor]
  · rw [h4]; norm_num [qmax, silverReading, round2, roundHalfEven, qfloor]
  · rw [h5]; norm_num [qmin, silverReading, round2, roundHalfEven, qfloor]
  · rw [h11]; rfl
  · rw [h12]; rfl

theorem stage2_fold_converges (w : List WeatherRecordSilver)
    (gold : List WeatherDailyGold) (now now' : Nat) :
    (w.foldl goldStep []).foldl (fun gd kv => upsertGold gd kv.1 kv.2 now')
      ((w.foldl goldStep []).foldl (fun gd kv => upsertGold gd kv.1 kv.2 now)
        gold) =
    (w.foldl goldStep []).foldl (fun gd kv => upsertGold gd kv.1 kv.2 now)
      gold := by
  have inv := goldInv_holds w
  have hcd : ∀ kv ∈ w.foldl goldStep [],
      kv.2.city = kv.1.1 ∧ kv.2.date = kv.1.2 :=
    fun kv hkv => ⟨(inv.2.2 kv hkv).1, (inv.2.2 kv hkv).2.1⟩
  exact foldl_upsert_id now' _ _ (settled_after_foldl now _ gold inv.1 hcd)

/-- C9: Stage 2 converges under repetition — a second run over an unchanged
CleanRecord set recomputes every group from scratch and upserts values
identical to the first run's, leaving the database (in particular every
gold row) exactly as it was; and the upsert keeps the (entity, day) keys of
the aggregate layer pairwise distinct whenever they were distinct before. -/
theorem stage2_upsert_convergence (db : DB) (today days_back now now' : Nat) :
    transform_silver_to_gold (transform_silver_to_gold db today days_back now)
        today days_back now' =
      transform_silver_to_gold db today days_back now ∧
    ((db.weather_daily_gold.map goldKey).Nodup →
      (((transform_silver_to_gold db today days_back now).weather_daily_gold).map
        goldKey).Nodup) := by
  by_cases hw : silverWindow db.weather_records_silver today days_back = []
  · rw [stage2_eq_of_empty db today days_back now hw]
    exact ⟨stage2_eq_of_empty db today days_back now' hw, fun h => h⟩
  · have e1 := stage2_eq db today days_back now hw
    constructor
    · have hw2 : ¬silverWindow
          (transform_silver_to_gold db today days_back now).weather_records_silver
          today days_back = [] := by
        rw [e1]; exact hw
      rw [stage2_eq (transform_silver_to_gold db today days_back now)
        today days_back now' hw2, e1]
      exact congrArg (fun gl => { db with weather_daily_gold := gl })
        (stage2_fold_converges
          (silverWindow db.weather_records_silver today days_back)
          db.weather_daily_gold now now')
    · intro hnd
      rw [e1]
      have inv := goldInv_holds (silverWindow db.weather_records_silver today days_back)
      exact foldl_upsert_keys_nodup now _ db.weather_daily_gold hnd
        (fun kv hkv => ⟨(inv.2.2 kv hkv).1, (inv.2.2 kv hkv).2.1⟩)

/-- Instantiation of `stage2_upsert_convergence` on the three-reading witness
database (whose gold layer starts empty, trivially satisfying the key
invariant). -/
theorem stage2_upsert_convergence_witness :
    (((transform_silver_to_gold dbStage2Witness 1 7 99).weather_daily_gold).map
      goldKey).Nodup :=
  (stage2_upsert_convergence dbStage2Witness 1 7 99 100).2 (by decide)
